import Mathlib

/-!
# Network mapping resolution and duplicate detection (forklift)

Shallow embedding of `pkg/controller/plan/adapter/base/network.go`:
`FindMappingForNICRef` and `ValidateNetworkDuplicates`, together with the
data they consume (`ref.Ref`, `api.NetworkPair`, `api.NetworkMap`).

Go strings are Lean `String`s, a `*api.NetworkMap` is an `Option NetworkMap`
(`none` is the nil pointer), the Go `map[string]int` is an association list
with one entry per key, and a pair of named results is a Lean pair in the
order of the Go signature.
-/

namespace Forklift

/-! ## Data model -/

/-- Go `ref.Ref`, restricted to the four fields the resolver reads.  The Go
field `Type` is spelled `Typ` because `Type` is reserved. -/
structure Ref where
  ID : String
  Typ : String
  Namespace : String
  Name : String
deriving DecidableEq, Repr

/-- Go `api.DestinationNetwork`. -/
structure DestinationNetwork where
  Typ : String
  Namespace : String
  Name : String
deriving DecidableEq, Repr

/-- Go `api.NetworkPair`. -/
structure NetworkPair where
  Source : Ref
  Destination : DestinationNetwork
deriving DecidableEq, Repr

/-- Go `api.NetworkMap`; `Map` stands for the field path `Spec.Map`. -/
structure NetworkMap where
  Map : List NetworkPair
deriving DecidableEq, Repr

/-- The zero value of `ref.Ref`. -/
def Ref.zero : Ref := ⟨"", "", "", ""⟩

/-- The zero value of `api.NetworkPair`, the value of an unassigned named result. -/
def NetworkPair.zero : NetworkPair := ⟨Ref.zero, ⟨"", "", ""⟩⟩

/-- Network destination type `Pod`. -/
def Pod : String := "pod"

/-- Network destination type `Multus`. -/
def Multus : String := "multus"

/-- Network destination type `Ignored`. -/
def Ignored : String := "ignored"

/-! ## Lookups on the network map -/

/-- Modelled from the spec: the entry scan shared by the three lookup methods of
`api.NetworkMap`, whose bodies are not part of the sources at hand.  The map is
an ordered sequence of entries looked up by matching on exact equality of the
chosen key; the first matching entry in map order is returned with
`found = true`, and when no entry matches the result is not-found (here with
the zero-valued pair). -/
def scanEntries (p : NetworkPair → Bool) : List NetworkPair → NetworkPair × Bool
  | [] => (NetworkPair.zero, false)
  | e :: rest => if p e then (e, true) else scanEntries p rest

/-- Modelled from the spec: `(*NetworkMap).FindNetwork`, matching the entry whose
source identifier equals the given one. -/
def NetworkMap.FindNetwork (m : NetworkMap) (networkID : String) : NetworkPair × Bool :=
  scanEntries (fun e => decide (e.Source.ID = networkID)) m.Map

/-- Modelled from the spec: `(*NetworkMap).FindNetworkByType`, matching the entry
whose source type tag equals the given one. -/
def NetworkMap.FindNetworkByType (m : NetworkMap) (networkType : String) : NetworkPair × Bool :=
  scanEntries (fun e => decide (e.Source.Typ = networkType)) m.Map

/-- Modelled from the spec: `(*NetworkMap).FindNetworkByNameAndNamespace`, matching
the entry whose source (namespace, name) equals the given pair. -/
def NetworkMap.FindNetworkByNameAndNamespace (m : NetworkMap) (ns name : String) :
    NetworkPair × Bool :=
  scanEntries (fun e => decide (e.Source.Namespace = ns) && decide (e.Source.Name = name)) m.Map

/-- Go `FindMappingForNICRef`: returns the pair whose source matches the NIC
reference, trying the ID, then the type, then (namespace, name). -/
def FindMappingForNICRef (nicRef : Ref) (networkMap : Option NetworkMap) : NetworkPair × Bool :=
  match networkMap with
  | none => (NetworkPair.zero, false)
  | some m =>
    if nicRef.ID ≠ "" then m.FindNetwork nicRef.ID
    else if nicRef.Typ ≠ "" then m.FindNetworkByType nicRef.Typ
    else if nicRef.Name ≠ "" then m.FindNetworkByNameAndNamespace nicRef.Namespace nicRef.Name
    else (NetworkPair.zero, false)

/-! ## Duplicate detection -/

/-- Go `fmt.Sprintf("%s/%s", namespace, name)`. -/
def nadKeyOf (ns name : String) : String := ns ++ "/" ++ name

/-- Go `nadCount[nadKey]++` on a `map[string]int` held as an association list:
an existing key has its counter incremented, a new key is added with counter 1. -/
def incrCount (key : String) : List (String × Nat) → List (String × Nat)
  | [] => [(key, 1)]
  | (k, c) :: rest => if k = key then (k, c + 1) :: rest else (k, c) :: incrCount key rest

/-- Go `nadCount[key]`: the counter stored under a key, `0` when absent. -/
def getCount (key : String) : List (String × Nat) → Nat
  | [] => 0
  | (k, c) :: rest => if k = key then c else getCount key rest

/-- The loop `for _, nicRef := range nicRefs` of `ValidateNetworkDuplicates`,
threading `(podCount, nadCount)`. -/
def countLoop (networkMap : Option NetworkMap) :
    List Ref → Nat × List (String × Nat) → Nat × List (String × Nat)
  | [], st => st
  | nicRef :: rest, (podCount, nadCount) =>
    let res := FindMappingForNICRef nicRef networkMap
    if res.2 = false then countLoop networkMap rest (podCount, nadCount)
    else if res.1.Destination.Typ = Pod then
      countLoop networkMap rest (podCount + 1, nadCount)
    else if res.1.Destination.Typ = Multus then
      countLoop networkMap rest
        (podCount, incrCount (nadKeyOf res.1.Destination.Namespace res.1.Destination.Name) nadCount)
    else countLoop networkMap rest (podCount, nadCount)

/-- The loop `for _, count := range nadCount` with its `break`, over the entries
of the counter map in the order they are visited. -/
def rangeNadCount : List (String × Nat) → Bool
  | [] => false
  | (_, count) :: rest => if count > 1 then true else rangeNadCount rest

/-- Go `ValidateNetworkDuplicates`; the result is `(foundNadDup, foundPodDup)`,
in the order of the Go signature. -/
def ValidateNetworkDuplicates (nicRefs : List Ref) (networkMap : Option NetworkMap) :
    Bool × Bool :=
  match networkMap with
  | none => (false, false)
  | some m =>
    let st := countLoop (some m) nicRefs (0, [])
    (rangeNadCount st.2, decide (st.1 > 1))

/-! ## Specification vocabulary -/

/-- The reference resolves to an entry whose destination type is `pod`. -/
def resolvesPod (networkMap : Option NetworkMap) (r : Ref) : Bool :=
  (FindMappingForNICRef r networkMap).2 &&
    decide ((FindMappingForNICRef r networkMap).1.Destination.Typ = Pod)

/-- The reference resolves to an entry whose destination type is `multus`. -/
def resolvesMultus (networkMap : Option NetworkMap) (r : Ref) : Bool :=
  (FindMappingForNICRef r networkMap).2 &&
    decide ((FindMappingForNICRef r networkMap).1.Destination.Typ = Multus)

/-- The destination the reference resolves to. -/
def destOf (networkMap : Option NetworkMap) (r : Ref) : DestinationNetwork :=
  (FindMappingForNICRef r networkMap).1.Destination

/-- The destination identity, as a (namespace, name) pair, of the entry the
reference resolves to. -/
def destIdOf (networkMap : Option NetworkMap) (r : Ref) : String × String :=
  ((destOf networkMap r).Namespace, (destOf networkMap r).Name)

/-- The counter key of the destination the reference resolves to. -/
def keyOf (networkMap : Option NetworkMap) (r : Ref) : String :=
  nadKeyOf (destOf networkMap r).Namespace (destOf networkMap r).Name

/-- The reference resolves to a `multus` entry whose counter key is `k`. -/
def resolvesKey (networkMap : Option NetworkMap) (k : String) (r : Ref) : Bool :=
  resolvesMultus networkMap r && decide (keyOf networkMap r = k)

/-! ## Test fixtures from `network_test.go` -/

/-- Map of `TestValidateNetworkDuplicates_DuplicatePod`. -/
def mapDuplicatePod : NetworkMap :=
  ⟨[⟨⟨"", "pod", "", ""⟩, ⟨Pod, "", ""⟩⟩, ⟨⟨"net-1", "", "", ""⟩, ⟨Pod, "", ""⟩⟩]⟩

/-- Map of `TestValidateNetworkDuplicates_DistinctNADs`. -/
def mapDistinctNADs : NetworkMap :=
  ⟨[⟨⟨"net-1", "", "", ""⟩, ⟨Multus, "ns", "nad-a"⟩⟩,
    ⟨⟨"net-2", "", "", ""⟩, ⟨Multus, "ns", "nad-b"⟩⟩]⟩

/-- Map of `TestValidateNetworkDuplicates_DuplicateNAD_ByNameNamespace`. -/
def mapSameNAD : NetworkMap :=
  ⟨[⟨⟨"", "", "ns", "net-1"⟩, ⟨Multus, "ns", "nad-a"⟩⟩,
    ⟨⟨"", "", "ns", "net-2"⟩, ⟨Multus, "ns", "nad-a"⟩⟩]⟩

/-- Two multus destinations that differ as (namespace, name) pairs but are
rendered to the same counter key `a/b/c`. -/
def mapSlashNADs : NetworkMap :=
  ⟨[⟨⟨"net-1", "", "", ""⟩, ⟨Multus, "a/b", "c"⟩⟩,
    ⟨⟨"net-2", "", "", ""⟩, ⟨Multus, "a", "b/c"⟩⟩]⟩

/-- Map of `TestValidateNetworkDuplicates_UnmappedNICIgnored`. -/
def mapSingleNAD : NetworkMap :=
  ⟨[⟨⟨"net-1", "", "", ""⟩, ⟨Multus, "ns", "nad-a"⟩⟩]⟩

/-- The references `{ID: "net-1"}` and `{ID: "net-2"}`. -/
def refsNet12 : List Ref := [⟨"net-1", "", "", ""⟩, ⟨"net-2", "", "", ""⟩]

/-- The references `{Namespace: "ns", Name: "net-1"}` and `{Namespace: "ns", Name: "net-2"}`. -/
def refsNsNet12 : List Ref := [⟨"", "", "ns", "net-1"⟩, ⟨"", "", "ns", "net-2"⟩]

/-- A reference carrying both the ID `net-1` and the (namespace, name) `ns/net-1`. -/
def refIdAndName : Ref := ⟨"net-1", "", "ns", "net-1"⟩

/-- The entry keyed by source ID `net-1`. -/
def pairById : NetworkPair := ⟨⟨"net-1", "", "", ""⟩, ⟨Multus, "ns", "nad-a"⟩⟩

/-- The entry keyed by source (namespace, name) `ns/net-1`. -/
def pairByName : NetworkPair := ⟨⟨"", "", "ns", "net-1"⟩, ⟨Multus, "ns", "nad-b"⟩⟩

/-- A map listing the name-keyed entry before the ID-keyed one. -/
def mapNameThenId : NetworkMap := ⟨[pairByName, pairById]⟩

/-- Map of `TestFindMappingForNICRef_ByType`. -/
def mapByType : NetworkMap := ⟨[⟨⟨"", "pod", "", ""⟩, ⟨Pod, "", ""⟩⟩]⟩

/-! ## VIB reconciliation (`vib.go`): data model

`cmd/vsphere-xcopy-volume-populator/internal/populator/vib.go` talks to a remote
vSphere endpoint.  The endpoint is a record of state-passing functions over an
arbitrary world state; every function of `vib.go` threads that state together
with the trace of the remote calls it made.  A Go `(value, error)` result is an
`Except`, a bare `error` is an `Option GoError` (`none` is `nil`), and a function
which can end the process or panic returns an `Outcome`.  The unbounded `for`
loop of `getHostDC` takes a number of iterations it may run; `none` means the
loop was still running when that number was used up.  Logging is left out. -/

/-- Go `error` values: an error handed back by a remote call, an error built
by `fmt.Errorf` without `%w`, and an error built by `fmt.Errorf(text + ": %w", inner)`. -/
inductive GoError where
  | remote (text : String)
  | errorf (text : String)
  | wrapf (text : String) (inner : GoError)
deriving DecidableEq, Repr

/-- The govmomi type `types.ManagedObjectReference`; `Typ` is the Go field `Type`. -/
structure ManagedObjectReference where
  Typ : String
  Value : String
deriving DecidableEq, Repr

/-- Go `(ManagedObjectReference).String()`, rendered as `Type:Value`. -/
def ManagedObjectReference.String (r : ManagedObjectReference) : String :=
  r.Typ ++ ":" ++ r.Value

/-- Go `*object.HostSystem`: what `Reference()` and `Name()` return. -/
structure HostSystem where
  Reference : ManagedObjectReference
  Name : String
deriving DecidableEq, Repr

/-- Go `*object.Datacenter`, the handle the finder resolves. -/
structure Datacenter where
  Reference : ManagedObjectReference
  InventoryPath : String
deriving DecidableEq, Repr

/-- Go `*object.Datastore`, the handle `GetDatastore` returns. -/
structure Datastore where
  Reference : ManagedObjectReference
deriving DecidableEq, Repr

/-- One row of a command response (`esx.Values`, a `map[string][]string`). -/
structure Values where
  fields : List (String × List String)
deriving DecidableEq, Repr

/-- Go `(esx.Values).Value(name)`: the first value stored under the field, or
the empty string. -/
def Values.Value (v : Values) (name : String) : String :=
  match v.fields.lookup name with
  | some (x :: _) => x
  | _ => ""

/-- The structured fault an error converts to; only its message list is read. -/
structure Fault where
  ErrMsgs : List String
deriving DecidableEq, Repr

/-- Equality of Go `(value, error)` results is decidable. -/
instance instDecidableEqExcept {ε α : Type} [DecidableEq ε] [DecidableEq α] :
    DecidableEq (Except ε α)
  | .ok a, .ok b =>
    if h : a = b then isTrue (by rw [h]) else isFalse (fun e => h (Except.ok.inj e))
  | .error a, .error b =>
    if h : a = b then isTrue (by rw [h]) else isFalse (fun e => h (Except.error.inj e))
  | .ok _, .error _ => isFalse (fun e => Except.noConfusion e)
  | .error _, .ok _ => isFalse (fun e => Except.noConfusion e)

/-- How a call of a Go function ends: it returns, the process is ended by
`klog.Fatalf`, or the goroutine panics. -/
inductive Outcome (α : Type) where
  | ret (a : α)
  | fatal (msg : String) (cause : GoError)
  | panicked (msg : String)
deriving DecidableEq, Repr

/-- A remote call, as recorded in the trace. -/
inductive Call where
  | runEsxCommand (host : HostSystem) (args : List String)
  | retrieveParent (ref : ManagedObjectReference)
  | finderDatacenter (path : String)
  | getDatastore (dc : Datacenter) (name : String)
  | uploadFile (ds : Datastore) (src dst : String)
deriving DecidableEq, Repr

/-- The remote endpoint over a world state `σ`: `client.RunEsxCommand`,
`vmware.ErrToFault` (a pure conversion returning `(vFault, conversionErr)`),
`pc.RetrieveOne(ref, ["parent"])`, `finder.Datacenter`, `client.GetDatastore`
and `ds.UploadFile`.  None of their bodies is part of `vib.go`; they are
parameters of the embedding. -/
structure Remote (σ : Type) where
  RunEsxCommand : σ → HostSystem → List String → Except GoError (List Values) × σ
  ErrToFault : GoError → Option Fault × Option GoError
  RetrieveParent : σ → ManagedObjectReference →
    Except GoError (Option ManagedObjectReference) × σ
  FinderDatacenter : σ → String → Except GoError Datacenter × σ
  GetDatastore : σ → Datacenter → String → Except GoError Datastore × σ
  UploadFile : σ → Datastore → String → String → Option GoError × σ

/-- The world state together with the trace of remote calls made so far, the
latest call last. -/
structure St (σ : Type) where
  world : σ
  trace : List Call
deriving DecidableEq, Repr

/-- Constant `vibName`. -/
def vibName : String := "vmkfstools-wrapper"

/-- Constant `vibLocation`. -/
def vibLocation : String := "/bin/vmkfstools-wrapper.vib"

/-! ## VIB reconciliation: remote calls with their trace -/

/-- The call `client.RunEsxCommand(ctx, host, args)`. -/
def runEsx {σ : Type} (env : Remote σ) (st : St σ) (host : HostSystem) (args : List String) :
    Except GoError (List Values) × St σ :=
  ((env.RunEsxCommand st.world host args).1,
    ⟨(env.RunEsxCommand st.world host args).2, st.trace ++ [Call.runEsxCommand host args]⟩)

/-- The call `pc.RetrieveOne(ctx, ref, []string{"parent"}, &mo)`, returning `mo.Parent`. -/
def retrieveParent {σ : Type} (env : Remote σ) (st : St σ) (ref : ManagedObjectReference) :
    Except GoError (Option ManagedObjectReference) × St σ :=
  ((env.RetrieveParent st.world ref).1,
    ⟨(env.RetrieveParent st.world ref).2, st.trace ++ [Call.retrieveParent ref]⟩)

/-- The call `finder.Datacenter(ctx, path)`. -/
def finderDatacenter {σ : Type} (env : Remote σ) (st : St σ) (path : String) :
    Except GoError Datacenter × St σ :=
  ((env.FinderDatacenter st.world path).1,
    ⟨(env.FinderDatacenter st.world path).2, st.trace ++ [Call.finderDatacenter path]⟩)

/-- The call `client.GetDatastore(ctx, dc, datastore)`. -/
def getDatastore {σ : Type} (env : Remote σ) (st : St σ) (dc : Datacenter) (name : String) :
    Except GoError Datastore × St σ :=
  ((env.GetDatastore st.world dc name).1,
    ⟨(env.GetDatastore st.world dc name).2, st.trace ++ [Call.getDatastore dc name]⟩)

/-- The call `ds.UploadFile(ctx, src, dst, nil)`. -/
def uploadFile {σ : Type} (env : Remote σ) (st : St σ) (ds : Datastore) (src dst : String) :
    Option GoError × St σ :=
  ((env.UploadFile st.world ds src dst).1,
    ⟨(env.UploadFile st.world ds src dst).2, st.trace ++ [Call.uploadFile ds src dst]⟩)

/-! ## VIB reconciliation: the functions of `vib.go` -/

/-- Substring search on character lists: some suffix of the list starts with `sub`. -/
def containsFrom (sub : List Char) : List Char → Bool
  | [] => sub.isPrefixOf []
  | c :: rest => sub.isPrefixOf (c :: rest) || containsFrom sub rest

/-- Go `strings.Contains(s, substr)`. -/
def stringsContains (s substr : String) : Bool := containsFrom substr.data s.data

/-- The loop `for _, m := range vFault.ErrMsgs` of `getViBVersion`: some message
contains `[NoMatchError]`. -/
def hasNoMatchError : List String → Bool
  | [] => false
  | m :: rest => if stringsContains m "[NoMatchError]" then true else hasNoMatchError rest

/-- Go `getViBVersion`; the result is `(version, err)`.  Indexing `r[0]` panics on
a response without rows. -/
def getViBVersion {σ : Type} (env : Remote σ) (st : St σ) (esxi : HostSystem) :
    Outcome (String × Option GoError) × St σ :=
  match (runEsx env st esxi ["software", "vib", "get", "-n", vibName]).1 with
  | .error err =>
    match (env.ErrToFault err).2 with
    | some _ =>
      (.ret ("", some err), (runEsx env st esxi ["software", "vib", "get", "-n", vibName]).2)
    | none =>
      match (env.ErrToFault err).1 with
      | some vFault =>
        if hasNoMatchError vFault.ErrMsgs then
          (.ret ("", none), (runEsx env st esxi ["software", "vib", "get", "-n", vibName]).2)
        else
          (.ret ("", some err), (runEsx env st esxi ["software", "vib", "get", "-n", vibName]).2)
      | none =>
        (.ret ("", some err), (runEsx env st esxi ["software", "vib", "get", "-n", vibName]).2)
  | .ok [] =>
    (.panicked "index out of range [0] with length 0",
      (runEsx env st esxi ["software", "vib", "get", "-n", vibName]).2)
  | .ok (row :: _) =>
    (.ret (row.Value "Version", none),
      (runEsx env st esxi ["software", "vib", "get", "-n", vibName]).2)

/-- The `for` loop of `getHostDC` (lines 71 to 91), started with `currentParentRef`
and allowed to run the given number of iterations.  Reading
`currentParentRef.Type` panics on a nil pointer. -/
def walkParents {σ : Type} (env : Remote σ) (esx : HostSystem) :
    Nat → St σ → Option ManagedObjectReference →
      Option (Outcome (Except GoError Datacenter) × St σ)
  | 0, _, _ => none
  | _ + 1, st, none => some (.panicked "nil pointer dereference", st)
  | fuel + 1, st, some cur =>
    if cur.Typ = "Datacenter" then
      match (finderDatacenter env st cur.String).1 with
      | .error err => some (.ret (.error err), (finderDatacenter env st cur.String).2)
      | .ok datacenter => some (.ret (.ok datacenter), (finderDatacenter env st cur.String).2)
    else
      match (retrieveParent env st cur).1 with
      | .error err =>
        some (.fatal "failed to retrieve intermediate parent" err, (retrieveParent env st cur).2)
      | .ok none =>
        some (.ret (.error (.errorf
          ("could not determine datacenter for host '" ++ esx.Name ++ "'."))),
          (retrieveParent env st cur).2)
      | .ok (some parent) => walkParents env esx fuel (retrieveParent env st cur).2 (some parent)

/-- Go `getHostDC`; the result is `(datacenter, nil)` or `(nil, err)`. -/
def getHostDC {σ : Type} (env : Remote σ) (fuel : Nat) (st : St σ) (esx : HostSystem) :
    Option (Outcome (Except GoError Datacenter) × St σ) :=
  match (retrieveParent env st esx.Reference).1 with
  | .error err =>
    some (.fatal "failed to retrieve host parent" err, (retrieveParent env st esx.Reference).2)
  | .ok parentRef => walkParents env esx fuel (retrieveParent env st esx.Reference).2 parentRef

/-- Go `uploadVib`; the result is `(path, err)`. -/
def uploadVib {σ : Type} (env : Remote σ) (st : St σ) (dc : Datacenter) (datastore : String) :
    (String × Option GoError) × St σ :=
  match (getDatastore env st dc datastore).1 with
  | .error err => (("", some (.wrapf "failed to upload file" err)), (getDatastore env st dc datastore).2)
  | .ok ds =>
    match (uploadFile env (getDatastore env st dc datastore).2 ds vibLocation
        (vibName ++ ".vib")).1 with
    | some err =>
      (("", some (.wrapf ("failed to upload " ++ vibLocation) err)),
        (uploadFile env (getDatastore env st dc datastore).2 ds vibLocation
          (vibName ++ ".vib")).2)
    | none =>
      (("/vmfs/volumes/" ++ datastore ++ "/" ++ (vibName ++ ".vib"), none),
        (uploadFile env (getDatastore env st dc datastore).2 ds vibLocation
          (vibName ++ ".vib")).2)

/-- Go `installVib`. -/
def installVib {σ : Type} (env : Remote σ) (st : St σ) (esx : HostSystem) (vibPath : String) :
    Option GoError × St σ :=
  match (runEsx env st esx ["software", "vib", "install", "-f", "1", "-v", vibPath]).1 with
  | .error err =>
    (some err, (runEsx env st esx ["software", "vib", "install", "-f", "1", "-v", vibPath]).2)
  | .ok _ =>
    (none, (runEsx env st esx ["software", "vib", "install", "-f", "1", "-v", vibPath]).2)

/-- Lines 33 to 53 of `ensureVib`: what happens once the version query has
produced `currentVersion`. -/
def ensureVibFrom {σ : Type} (env : Remote σ) (fuel : Nat) (st : St σ) (esx : HostSystem)
    (datastore desiredVibVersion currentVersion : String) :
    Option (Outcome (Option GoError) × St σ) :=
  if currentVersion = desiredVibVersion then some (.ret none, st)
  else
    match getHostDC env fuel st esx with
    | none => none
    | some (.fatal msg cause, st2) => some (.fatal msg cause, st2)
    | some (.panicked msg, st2) => some (.panicked msg, st2)
    | some (.ret (.error err), st2) => some (.ret (some err), st2)
    | some (.ret (.ok dc), st2) =>
      match (uploadVib env st2 dc datastore).1.2 with
      | some err =>
        some (.ret (some (.wrapf ("failed to upload the VIB to ESXi " ++ esx.Name) err)),
          (uploadVib env st2 dc datastore).2)
      | none =>
        match (installVib env (uploadVib env st2 dc datastore).2 esx
            (uploadVib env st2 dc datastore).1.1).1 with
        | some err =>
          some (.ret (some (.wrapf ("failed to install the VIB on ESXi " ++ esx.Name) err)),
            (installVib env (uploadVib env st2 dc datastore).2 esx
              (uploadVib env st2 dc datastore).1.1).2)
        | none =>
          some (.ret none,
            (installVib env (uploadVib env st2 dc datastore).2 esx
              (uploadVib env st2 dc datastore).1.1).2)

/-- Go `ensureVib`. -/
def ensureVib {σ : Type} (env : Remote σ) (fuel : Nat) (st : St σ) (esx : HostSystem)
    (datastore desiredVibVersion : String) : Option (Outcome (Option GoError) × St σ) :=
  match getViBVersion env st esx with
  | (.fatal msg cause, st1) => some (.fatal msg cause, st1)
  | (.panicked msg, st1) => some (.panicked msg, st1)
  | (.ret (_, some err), st1) =>
    some (.ret (some (.wrapf ("failed to get the VIB version from ESXi " ++ esx.Name) err)), st1)
  | (.ret (currentVersion, none), st1) =>
    ensureVibFrom env fuel st1 esx datastore desiredVibVersion currentVersion

/-! ## VIB reconciliation: vocabulary and fixtures -/

/-- The call is an install command: `RunEsxCommand` with arguments starting
`software vib install`. -/
def Call.isInstall : Call → Bool
  | .runEsxCommand _ ("software" :: "vib" :: "install" :: _) => true
  | _ => false

/-- The call belongs to the upload step: `GetDatastore` or `UploadFile`. -/
def Call.isUpload : Call → Bool
  | .getDatastore _ _ => true
  | .uploadFile _ _ _ => true
  | _ => false

/-- The call belongs to datacenter resolution: a parent fetch or a finder lookup. -/
def Call.isResolve : Call → Bool
  | .retrieveParent _ => true
  | .finderDatacenter _ => true
  | _ => false

/-- The call is a parent fetch. -/
def Call.isFetch : Call → Bool
  | .retrieveParent _ => true
  | _ => false

/-- The remote calls made between two states. -/
def newCalls {σ : Type} (before after : St σ) : List Call :=
  after.trace.drop before.trace.length

/-- The state reached by fetching, in order, the parents of the given nodes. -/
def fetchAll {σ : Type} (env : Remote σ) (st : St σ) (nodes : List ManagedObjectReference) :
    St σ :=
  nodes.foldl (fun s n => (retrieveParent env s n).2) st

/-- The argument vector of the version query. -/
def queryArgs : List String := ["software", "vib", "get", "-n", vibName]

/-- The argument vector of the install command for a package path. -/
def installArgs (vibPath : String) : List String :=
  ["software", "vib", "install", "-f", "1", "-v", vibPath]

/-- The ancestors `chain` of `cur`, nearest first: every fetch of a parent along
the chain succeeds, in every world state, with the next element of the chain. -/
def Ancestors {σ : Type} (env : Remote σ) : ManagedObjectReference →
    List ManagedObjectReference → Prop
  | _, [] => True
  | cur, a :: rest => (∀ w, (env.RetrieveParent w cur).1 = .ok (some a)) ∧ Ancestors env a rest

/-- A simulated endpoint whose world state is the installed VIB version (`none`
when the VIB is absent).  The hierarchy is a table from a reference to its
parent; a reference missing from the table cannot be fetched.  The version query
of a host without the VIB fails with a fault carrying a `[NoMatchError]`
message, and an install command installs the version `vibFileVersion`. -/
def simRemote (hierarchy : List (ManagedObjectReference × Option ManagedObjectReference))
    (vibFileVersion : String) : Remote (Option String) where
  RunEsxCommand := fun w _ args =>
    match args with
    | ["software", "vib", "get", "-n", _] =>
      match w with
      | none => (.error (.remote "EsxCLI fault: [NoMatchError] no VIB matching"), w)
      | some v => (.ok [⟨[("Name", ["vmkfstools-wrapper"]), ("Version", [v])]⟩], w)
    | ["software", "vib", "install", "-f", "1", "-v", _] =>
      (.ok [⟨[("Message", ["Operation finished successfully."])]⟩], some vibFileVersion)
    | _ => (.error (.remote "unknown command"), w)
  ErrToFault := fun err =>
    match err with
    | .remote text => (some ⟨["fault", text]⟩, none)
    | _ => (none, some (.errorf "error is not a fault"))
  RetrieveParent := fun w ref =>
    match hierarchy.lookup ref with
    | some parent => (.ok parent, w)
    | none => (.error (.remote "ManagedObjectNotFound"), w)
  FinderDatacenter := fun w path => (.ok ⟨⟨"Datacenter", path⟩, "/" ++ path⟩, w)
  GetDatastore := fun w _ name => (.ok ⟨⟨"Datastore", name⟩⟩, w)
  UploadFile := fun w _ _ _ => (none, w)

/-- The host `host-9`. -/
def simHost : HostSystem := ⟨⟨"HostSystem", "host-9"⟩, "esx1"⟩

/-- A well-formed hierarchy: host, cluster, host folder, datacenter, root folder. -/
def simHierarchy : List (ManagedObjectReference × Option ManagedObjectReference) :=
  [(⟨"HostSystem", "host-9"⟩, some ⟨"ClusterComputeResource", "domain-c7"⟩),
   (⟨"ClusterComputeResource", "domain-c7"⟩, some ⟨"Folder", "group-h4"⟩),
   (⟨"Folder", "group-h4"⟩, some ⟨"Datacenter", "datacenter-2"⟩),
   (⟨"Datacenter", "datacenter-2"⟩, some ⟨"Folder", "group-d1"⟩),
   (⟨"Folder", "group-d1"⟩, none)]

/-- A hierarchy that ends at a root folder without passing a datacenter. -/
def simHierarchyNoDC : List (ManagedObjectReference × Option ManagedObjectReference) :=
  [(⟨"HostSystem", "host-9"⟩, some ⟨"ComputeResource", "domain-s5"⟩),
   (⟨"ComputeResource", "domain-s5"⟩, some ⟨"Folder", "group-d1"⟩),
   (⟨"Folder", "group-d1"⟩, none)]

/-- A hierarchy in which the host's own parent reference is absent. -/
def simHierarchyOrphan : List (ManagedObjectReference × Option ManagedObjectReference) :=
  [(⟨"HostSystem", "host-9"⟩, none)]

/-- A hierarchy in which the parent of the host's cluster cannot be fetched. -/
def simHierarchyBroken : List (ManagedObjectReference × Option ManagedObjectReference) :=
  [(⟨"HostSystem", "host-9"⟩, some ⟨"ClusterComputeResource", "domain-c7"⟩)]

/-- A parent relation with a cycle between two folders and no datacenter. -/
def simHierarchyCycle : List (ManagedObjectReference × Option ManagedObjectReference) :=
  [(⟨"HostSystem", "host-9"⟩, some ⟨"Folder", "group-a"⟩),
   (⟨"Folder", "group-a"⟩, some ⟨"Folder", "group-b"⟩),
   (⟨"Folder", "group-b"⟩, some ⟨"Folder", "group-a"⟩)]

/-- The initial state of a simulated host carrying the given VIB version. -/
def simState (installed : Option String) : St (Option String) := ⟨installed, []⟩

/-- Map of `TestNICNetworkRefs_VMOnlyUsesOneOfDuplicateMappings`: two entries
sharing one destination. -/
def mapDuplicateMappings : NetworkMap :=
  ⟨[⟨⟨"", "", "test-ns", "net-1"⟩, ⟨Multus, "ns1", "nad-a"⟩⟩,
    ⟨⟨"", "", "test-ns", "net-2"⟩, ⟨Multus, "ns1", "nad-a"⟩⟩]⟩

/-- The references of `TestValidateNetworkDuplicates_DuplicatePod`. -/
def refsPodAndNet1 : List Ref := [⟨"", "pod", "", ""⟩, ⟨"net-1", "", "", ""⟩]

/-- A simulated endpoint whose commands all succeed with a response of zero rows;
everything else answers as `simRemote`. -/
def simRemoteNoRows : Remote (Option String) :=
  { simRemote simHierarchy "1.0" with RunEsxCommand := fun w _ _ => (.ok [], w) }

/-- The references of `TestValidateNetworkDuplicates_DuplicateNAD_ByNameNamespace`
preceded by an unmapped reference. -/
def refsUnmappedThenNs12 : List Ref :=
  [⟨"net-999", "", "", ""⟩, ⟨"", "", "ns", "net-1"⟩, ⟨"", "", "ns", "net-2"⟩]

/-- The same references with the unmapped one last and the mapped ones swapped. -/
def refsNs21ThenUnmapped : List Ref :=
  [⟨"", "", "ns", "net-2"⟩, ⟨"", "", "ns", "net-1"⟩, ⟨"net-999", "", "", ""⟩]

/-- The remote calls of one full reconciliation of `simHost` through `simHierarchy`
onto datastore `ds1`: the version query, three parent fetches, the finder
lookup, the datastore lookup, the upload and the install command. -/
def simReconcileCalls : List Call :=
  [Call.runEsxCommand simHost ["software", "vib", "get", "-n", "vmkfstools-wrapper"],
   Call.retrieveParent ⟨"HostSystem", "host-9"⟩,
   Call.retrieveParent ⟨"ClusterComputeResource", "domain-c7"⟩,
   Call.retrieveParent ⟨"Folder", "group-h4"⟩,
   Call.finderDatacenter "Datacenter:datacenter-2",
   Call.getDatastore ⟨⟨"Datacenter", "Datacenter:datacenter-2"⟩, "/Datacenter:datacenter-2"⟩ "ds1",
   Call.uploadFile ⟨⟨"Datastore", "ds1"⟩⟩ "/bin/vmkfstools-wrapper.vib" "vmkfstools-wrapper.vib",
   Call.runEsxCommand simHost
     ["software", "vib", "install", "-f", "1", "-v", "/vmfs/volumes/ds1/vmkfstools-wrapper.vib"]]

/-- An entry carrying both the source ID `net-1` and the source (namespace, name)
`ns/net-1`, mapped to the NAD `ns/nad-b`. -/
def pairByIdAndName : NetworkPair := ⟨⟨"net-1", "", "ns", "net-1"⟩, ⟨Multus, "ns", "nad-b"⟩⟩

/-- A map in which two entries carry the source ID `net-1`: the entry that also
carries the (namespace, name) stands before the ID-only entry. -/
def mapSharedId : NetworkMap := ⟨[pairByIdAndName, pairById]⟩

/-! ## The tests of `network_test.go`, evaluated -/

theorem test_DuplicatePod :
    ValidateNetworkDuplicates [⟨"", "pod", "", ""⟩, ⟨"net-1", "", "", ""⟩]
      (some mapDuplicatePod) = (false, true) := by decide

theorem test_DistinctNADs :
    ValidateNetworkDuplicates refsNet12 (some mapDistinctNADs) = (false, false) := by decide

theorem test_DuplicateNAD_ByNameNamespace :
    ValidateNetworkDuplicates refsNsNet12 (some mapSameNAD) = (true, false) := by decide

theorem test_UnmappedNICIgnored :
    ValidateNetworkDuplicates [⟨"net-1", "", "", ""⟩, ⟨"net-999", "", "", ""⟩]
      (some mapSingleNAD) = (false, false) := by decide

/-! ## Counter map lemmas -/

theorem getCount_incrCount (key k : String) (l : List (String × Nat)) :
    getCount k (incrCount key l) = getCount k l + (if key = k then 1 else 0) := by
  induction l with
  | nil => simp [incrCount, getCount]
  | cons e rest ih =>
    obtain ⟨k0, c⟩ := e
    by_cases h : k0 = key
    · subst h
      by_cases hk : k0 = k <;> simp [incrCount, getCount, hk]
    · by_cases hk : k0 = k
      · subst hk
        have h2 : ¬ key = k0 := fun e => h e.symm
        simp [incrCount, getCount, h, h2]
      · simp [incrCount, getCount, h, hk, ih]

theorem mem_keys_incrCount (key k : String) (l : List (String × Nat)) :
    k ∈ (incrCount key l).map Prod.fst ↔ k = key ∨ k ∈ l.map Prod.fst := by
  induction l with
  | nil => simp [incrCount]
  | cons e rest ih =>
    obtain ⟨k0, c⟩ := e
    by_cases h : k0 = key
    · subst h
      simp [incrCount]
    · simp only [incrCount, h, if_false, List.map_cons, List.mem_cons, ih]
      tauto

theorem nodup_keys_incrCount (key : String) (l : List (String × Nat))
    (h : (l.map Prod.fst).Nodup) : ((incrCount key l).map Prod.fst).Nodup := by
  induction l with
  | nil => simp [incrCount]
  | cons e rest ih =>
    obtain ⟨k0, c⟩ := e
    rw [List.map_cons, List.nodup_cons] at h
    by_cases hk : k0 = key
    · subst hk
      simpa [incrCount] using h
    · simp only [incrCount, hk, if_false, List.map_cons, List.nodup_cons]
      refine ⟨?_, ih h.2⟩
      intro hmem
      rcases (mem_keys_incrCount key k0 rest).1 hmem with h1 | h1
      · exact hk h1
      · exact h.1 h1

theorem rangeNadCount_iff (l : List (String × Nat)) :
    rangeNadCount l = true ↔ ∃ e ∈ l, 1 < e.2 := by
  induction l with
  | nil => simp [rangeNadCount]
  | cons e rest ih =>
    obtain ⟨k0, c⟩ := e
    by_cases hc : 1 < c
    · simp [rangeNadCount, hc]
    · simp [rangeNadCount, hc, ih]

theorem getCount_of_mem (l : List (String × Nat)) (h : (l.map Prod.fst).Nodup)
    (k : String) (c : Nat) (hm : (k, c) ∈ l) : getCount k l = c := by
  induction l with
  | nil => simp at hm
  | cons e rest ih =>
    obtain ⟨k0, c0⟩ := e
    rw [List.map_cons, List.nodup_cons] at h
    rcases List.mem_cons.1 hm with h1 | h1
    · cases h1
      simp [getCount]
    · have hne : ¬ k0 = k := by
        intro e
        subst e
        exact h.1 (List.mem_map.2 ⟨(k0, c), h1, rfl⟩)
      simp [getCount, hne, ih h.2 h1]

theorem mem_of_getCount_pos (l : List (String × Nat)) (k : String) (h : 0 < getCount k l) :
    (k, getCount k l) ∈ l := by
  induction l with
  | nil => simp [getCount] at h
  | cons e rest ih =>
    obtain ⟨k0, c0⟩ := e
    by_cases hk : k0 = k
    · subst hk
      simp [getCount]
    · simp only [getCount, hk, if_false] at h ⊢
      exact List.mem_cons_of_mem _ (ih h)

theorem rangeNadCount_iff_getCount (l : List (String × Nat)) (h : (l.map Prod.fst).Nodup) :
    rangeNadCount l = true ↔ ∃ k, 1 < getCount k l := by
  rw [rangeNadCount_iff]
  constructor
  · rintro ⟨⟨k, c⟩, hm, hc⟩
    exact ⟨k, by rw [getCount_of_mem l h k c hm]; exact hc⟩
  · rintro ⟨k, hk⟩
    exact ⟨(k, getCount k l), mem_of_getCount_pos l k (by omega), hk⟩

/-! ## The counter key -/

theorem split_at_first_slash (l1 l2 r1 r2 : List Char)
    (h1 : '/' ∉ l1) (h2 : '/' ∉ l2) (h : l1 ++ '/' :: r1 = l2 ++ '/' :: r2) :
    l1 = l2 ∧ r1 = r2 := by
  induction l1 generalizing l2 with
  | nil =>
    cases l2 with
    | nil => simpa using h
    | cons b l2 =>
      simp only [List.nil_append, List.cons_append, List.cons.injEq] at h
      exact absurd (List.mem_cons.2 (Or.inl h.1)) h2
  | cons a l1 ih =>
    cases l2 with
    | nil =>
      simp only [List.nil_append, List.cons_append, List.cons.injEq] at h
      exact absurd (List.mem_cons.2 (Or.inl h.1.symm)) h1
    | cons b l2 =>
      simp only [List.cons_append, List.cons.injEq] at h
      have hr := ih l2 (fun hm => h1 (List.mem_cons_of_mem _ hm))
        (fun hm => h2 (List.mem_cons_of_mem _ hm)) h.2
      exact ⟨by rw [h.1, hr.1], hr.2⟩

/-- The counter key determines the (namespace, name) pair when the namespaces
contain no `/`. -/
theorem nadKeyOf_inj_of_no_slash (ns1 name1 ns2 name2 : String)
    (h1 : '/' ∉ ns1.data) (h2 : '/' ∉ ns2.data)
    (h : nadKeyOf ns1 name1 = nadKeyOf ns2 name2) : ns1 = ns2 ∧ name1 = name2 := by
  have hd := congrArg String.data h
  simp only [nadKeyOf, String.data_append] at hd
  rw [List.append_assoc, List.append_assoc] at hd
  have := split_at_first_slash _ _ _ _ h1 h2 hd
  exact ⟨String.ext this.1, String.ext this.2⟩

/-! ## The counting loop -/

theorem pod_ne_multus : Pod ≠ Multus := by decide

theorem countLoop_cons (nm : Option NetworkMap) (r : Ref) (rest : List Ref)
    (pc : Nat) (nc : List (String × Nat)) :
    countLoop nm (r :: rest) (pc, nc) =
      countLoop nm rest
        (pc + (if resolvesPod nm r = true then 1 else 0),
         if resolvesMultus nm r = true then incrCount (keyOf nm r) nc else nc) := by
  rw [countLoop]
  by_cases hf : (FindMappingForNICRef r nm).2 = false
  · simp [hf, resolvesPod, resolvesMultus]
  · have hf2 : (FindMappingForNICRef r nm).2 = true := by simpa using hf
    by_cases hp : (FindMappingForNICRef r nm).1.Destination.Typ = Pod
    · have hm : ¬ (Pod = Multus) := pod_ne_multus
      simp [hf2, hp, resolvesPod, resolvesMultus, hm]
    · by_cases hm : (FindMappingForNICRef r nm).1.Destination.Typ = Multus
      · have hmp : ¬ (Multus = Pod) := fun e => pod_ne_multus e.symm
        simp [hf2, hm, hmp, resolvesPod, resolvesMultus, keyOf, destOf]
      · simp [hf2, hp, hm, resolvesPod, resolvesMultus]

theorem countLoop_fst (nm : Option NetworkMap) (refs : List Ref)
    (pc : Nat) (nc : List (String × Nat)) :
    (countLoop nm refs (pc, nc)).1 = pc + refs.countP (resolvesPod nm) := by
  induction refs generalizing pc nc with
  | nil => simp [countLoop]
  | cons r rest ih =>
    rw [countLoop_cons, ih, List.countP_cons]
    omega

theorem countLoop_getCount (nm : Option NetworkMap) (k : String) (refs : List Ref)
    (pc : Nat) (nc : List (String × Nat)) :
    getCount k (countLoop nm refs (pc, nc)).2 =
      getCount k nc + refs.countP (resolvesKey nm k) := by
  induction refs generalizing pc nc with
  | nil => simp [countLoop]
  | cons r rest ih =>
    rw [countLoop_cons, ih, List.countP_cons]
    by_cases hm : resolvesMultus nm r = true
    · rw [if_pos hm, getCount_incrCount]
      by_cases hk : keyOf nm r = k
      · simp [resolvesKey, hm, hk]; omega
      · simp [resolvesKey, hm, hk]
    · simp [resolvesKey, hm]

theorem countLoop_nodup (nm : Option NetworkMap) (refs : List Ref)
    (pc : Nat) (nc : List (String × Nat)) (h : (nc.map Prod.fst).Nodup) :
    ((countLoop nm refs (pc, nc)).2.map Prod.fst).Nodup := by
  induction refs generalizing pc nc with
  | nil => simpa [countLoop] using h
  | cons r rest ih =>
    rw [countLoop_cons]
    apply ih
    split
    · exact nodup_keys_incrCount _ _ h
    · exact h

/-- Two positions of a list satisfy a predicate exactly when the list counts
at least two elements satisfying it. -/
theorem two_le_countP_iff {α : Type} (p : α → Bool) (l : List α) :
    2 ≤ l.countP p ↔
      ∃ (i j : Nat) (x y : α), i < j ∧ l[i]? = some x ∧ l[j]? = some y ∧ p x = true ∧ p y = true := by
  induction l with
  | nil => simp
  | cons a rest ih =>
    have pos : 1 ≤ rest.countP p ↔ ∃ (j : Nat) (y : α), rest[j]? = some y ∧ p y = true := by
      rw [Nat.succ_le_iff, List.countP_pos_iff]
      constructor
      · rintro ⟨y, hy, hp⟩
        obtain ⟨j, hj⟩ := List.getElem?_of_mem hy
        exact ⟨j, y, hj, hp⟩
      · rintro ⟨j, y, hj, hp⟩
        exact ⟨y, List.getElem?_mem hj, hp⟩
    constructor
    · intro h
      rw [List.countP_cons] at h
      by_cases hrest : 2 ≤ rest.countP p
      · obtain ⟨i, j, x, y, hij, hi, hj, hx, hy⟩ := ih.1 hrest
        exact ⟨i + 1, j + 1, x, y, by omega, by simpa using hi, by simpa using hj, hx, hy⟩
      · have ha : p a = true := by
          by_contra hna
          rw [if_neg hna] at h
          exact hrest h
        have h1 : 1 ≤ rest.countP p := by
          rw [if_pos ha] at h
          omega
        obtain ⟨j, y, hj, hy⟩ := pos.1 h1
        exact ⟨0, j + 1, a, y, by omega, by simp, by simpa using hj, ha, hy⟩
    · rintro ⟨i, j, x, y, hij, hi, hj, hx, hy⟩
      rw [List.countP_cons]
      cases j with
      | zero => omega
      | succ j =>
        have hj2 : rest[j]? = some y := by simpa using hj
        cases i with
        | zero =>
          have hax : a = x := by simpa using hi
          subst hax
          have h1 := pos.2 ⟨j, y, hj2, hy⟩
          rw [if_pos hx]
          omega
        | succ i =>
          have hi2 : rest[i]? = some x := by simpa using hi
          have h2 := ih.2 ⟨i, j, x, y, by omega, hi2, hj2, hx, hy⟩
          omega

/-- The pod flag is raised exactly when two positions resolve to `pod` entries. -/
theorem podDup_iff_positions (refs : List Ref) (m : NetworkMap) :
    (ValidateNetworkDuplicates refs (some m)).2 = true ↔
      ∃ (i j : Nat) (x y : Ref), i < j ∧ refs[i]? = some x ∧ refs[j]? = some y ∧
        resolvesPod (some m) x = true ∧ resolvesPod (some m) y = true := by
  rw [← two_le_countP_iff]
  simp only [ValidateNetworkDuplicates, countLoop_fst, decide_eq_true_eq]
  omega

/-- The NAD flag is raised exactly when some counter key is hit by at least
two references resolving to `multus` entries. -/
theorem nadDup_iff_count (refs : List Ref) (nm : Option NetworkMap) :
    (ValidateNetworkDuplicates refs nm).1 = true ↔
      ∃ k, 2 ≤ refs.countP (resolvesKey nm k) := by
  cases nm with
  | none =>
    have h0 : ∀ k, refs.countP (resolvesKey none k) = 0 := by
      intro k
      rw [List.countP_eq_zero]
      intro a _
      simp [resolvesKey, resolvesMultus, FindMappingForNICRef]
    simp [ValidateNetworkDuplicates, h0]
  | some m =>
    have hnd := countLoop_nodup (some m) refs 0 [] (by simp)
    simp only [ValidateNetworkDuplicates]
    rw [rangeNadCount_iff_getCount _ hnd]
    constructor
    · rintro ⟨k, hk⟩
      rw [countLoop_getCount] at hk
      refine ⟨k, ?_⟩
      simp only [getCount] at hk
      omega
    · rintro ⟨k, hk⟩
      refine ⟨k, ?_⟩
      rw [countLoop_getCount]
      simp only [getCount]
      omega

/-- The NAD flag is raised exactly when two positions resolve to `multus`
entries with the same counter key. -/
theorem nadDup_iff_positions (refs : List Ref) (nm : Option NetworkMap) :
    (ValidateNetworkDuplicates refs nm).1 = true ↔
      ∃ (i j : Nat) (x y : Ref), i < j ∧ refs[i]? = some x ∧ refs[j]? = some y ∧
        resolvesMultus nm x = true ∧ resolvesMultus nm y = true ∧
        keyOf nm x = keyOf nm y := by
  rw [nadDup_iff_count]
  constructor
  · rintro ⟨k, h2⟩
    obtain ⟨i, j, x, y, hij, hi, hj, hx, hy⟩ := (two_le_countP_iff _ _).1 h2
    simp only [resolvesKey, Bool.and_eq_true, decide_eq_true_eq] at hx hy
    exact ⟨i, j, x, y, hij, hi, hj, hx.1, hy.1, hx.2.trans hy.2.symm⟩
  · rintro ⟨i, j, x, y, hij, hi, hj, hx, hy, hk⟩
    exact ⟨keyOf nm x, (two_le_countP_iff _ _).2
      ⟨i, j, x, y, hij, hi, hj, by simp [resolvesKey, hx], by simp [resolvesKey, hy, hk]⟩⟩

/-- References whose `multus` destinations have pairwise different counter keys
hit every key at most once. -/
theorem countP_resolvesKey_le_one (nm : Option NetworkMap) (k : String) (refs : List Ref)
    (h : List.Pairwise (fun x y => keyOf nm x ≠ keyOf nm y)
      (refs.filter (resolvesMultus nm))) :
    refs.countP (resolvesKey nm k) ≤ 1 := by
  induction refs with
  | nil => simp
  | cons a rest ih =>
    rw [List.countP_cons]
    by_cases hm : resolvesMultus nm a = true
    · rw [List.filter_cons_of_pos hm, List.pairwise_cons] at h
      by_cases hk : keyOf nm a = k
      · have h0 : rest.countP (resolvesKey nm k) = 0 := by
          rw [List.countP_eq_zero]
          intro y hy hyk
          simp only [resolvesKey, Bool.and_eq_true, decide_eq_true_eq] at hyk
          exact h.1 y (List.mem_filter.2 ⟨hy, hyk.1⟩) (hk.trans hyk.2.symm)
        rw [h0]
        split <;> omega
      · have := ih h.2
        simp only [resolvesKey, hm, hk, decide_False, Bool.and_false]
        simpa using this
    · have hm2 : resolvesMultus nm a = false := by simpa using hm
      rw [List.filter_cons_of_neg hm] at h
      have := ih h
      simp only [resolvesKey, hm2, Bool.false_and]
      simpa using this

/-- A reference that resolves to no entry leaves both counters untouched. -/
theorem countLoop_cons_unmapped (nm : Option NetworkMap) (u : Ref) (rest : List Ref)
    (st : Nat × List (String × Nat)) (hu : (FindMappingForNICRef u nm).2 = false) :
    countLoop nm (u :: rest) st = countLoop nm rest st := by
  obtain ⟨pc, nc⟩ := st
  rw [countLoop_cons]
  simp [resolvesPod, resolvesMultus, hu]

theorem countLoop_cons_congr (nm : Option NetworkMap) (a : Ref) (l l2 : List Ref)
    (h : ∀ st, countLoop nm l st = countLoop nm l2 st) (st : Nat × List (String × Nat)) :
    countLoop nm (a :: l) st = countLoop nm (a :: l2) st := by
  obtain ⟨pc, nc⟩ := st
  rw [countLoop_cons, countLoop_cons, h]

theorem countLoop_insertIdx_unmapped (nm : Option NetworkMap) (u : Ref)
    (hu : (FindMappingForNICRef u nm).2 = false) (i : Nat) (l : List Ref)
    (st : Nat × List (String × Nat)) :
    countLoop nm (l.insertIdx i u) st = countLoop nm l st := by
  induction i generalizing l st with
  | zero => rw [List.insertIdx_zero, countLoop_cons_unmapped nm u l st hu]
  | succ n ih =>
    cases l with
    | nil => rw [List.insertIdx_succ_nil]
    | cons a rest =>
      rw [List.insertIdx_succ_cons]
      exact countLoop_cons_congr nm a _ _ (fun st2 => ih rest st2) st

theorem validate_insertIdx_unmapped (nm : Option NetworkMap) (u : Ref)
    (hu : (FindMappingForNICRef u nm).2 = false) (i : Nat) (l : List Ref) :
    ValidateNetworkDuplicates (l.insertIdx i u) nm = ValidateNetworkDuplicates l nm := by
  cases nm with
  | none => rfl
  | some m => simp only [ValidateNetworkDuplicates, countLoop_insertIdx_unmapped (some m) u hu]

/-! ## Lookup lemmas -/

theorem scanEntries_found_iff (p : NetworkPair → Bool) (l : List NetworkPair) :
    (scanEntries p l).2 = true ↔ ∃ e ∈ l, p e = true := by
  induction l with
  | nil => simp [scanEntries]
  | cons a rest ih =>
    by_cases ha : p a = true
    · simp [scanEntries, ha]
    · simp [scanEntries, ha, ih]

theorem scanEntries_found_spec (p : NetworkPair → Bool) (l : List NetworkPair)
    (h : (scanEntries p l).2 = true) :
    (scanEntries p l).1 ∈ l ∧ p (scanEntries p l).1 = true := by
  induction l with
  | nil => simp [scanEntries] at h
  | cons a rest ih =>
    by_cases ha : p a = true
    · simp [scanEntries, ha]
    · simp only [scanEntries, ha, if_false] at h ⊢
      exact ⟨List.mem_cons_of_mem _ (ih h).1, (ih h).2⟩

theorem find_of_id (m : NetworkMap) (r : Ref) (hid : r.ID ≠ "") :
    FindMappingForNICRef r (some m) =
      scanEntries (fun e => decide (e.Source.ID = r.ID)) m.Map := by
  simp [FindMappingForNICRef, hid, NetworkMap.FindNetwork]

theorem find_of_type (m : NetworkMap) (r : Ref) (hid : r.ID = "") (htyp : r.Typ ≠ "") :
    FindMappingForNICRef r (some m) =
      scanEntries (fun e => decide (e.Source.Typ = r.Typ)) m.Map := by
  simp [FindMappingForNICRef, hid, htyp, NetworkMap.FindNetworkByType]

theorem find_of_name (m : NetworkMap) (r : Ref) (hid : r.ID = "") (htyp : r.Typ = "")
    (hname : r.Name ≠ "") :
    FindMappingForNICRef r (some m) =
      scanEntries (fun e => decide (e.Source.Namespace = r.Namespace) &&
        decide (e.Source.Name = r.Name)) m.Map := by
  simp [FindMappingForNICRef, hid, htyp, hname, NetworkMap.FindNetworkByNameAndNamespace]

theorem find_of_empty (nm : Option NetworkMap) (r : Ref) (hid : r.ID = "") (htyp : r.Typ = "")
    (hname : r.Name = "") :
    FindMappingForNICRef r nm = (NetworkPair.zero, false) := by
  cases nm <;> simp [FindMappingForNICRef, hid, htyp, hname]

/-! ## Duplicate detection: the claims -/

/-- C1: for every reference list and every non-nil network map, `foundPodDup` is
true if and only if two different positions of the list hold references that
`FindMappingForNICRef` resolves to entries of destination type `pod`; nothing
else (other destination types, unresolved references) enters the condition. -/
theorem C1_podDup_iff_two_pod_refs (nicRefs : List Ref) (m : NetworkMap) :
    (ValidateNetworkDuplicates nicRefs (some m)).2 = true ↔
      ∃ (i j : Nat) (x y : Ref), i ≠ j ∧ nicRefs[i]? = some x ∧ nicRefs[j]? = some y ∧
        ((FindMappingForNICRef x (some m)).2 = true ∧
          (FindMappingForNICRef x (some m)).1.Destination.Typ = Pod) ∧
        ((FindMappingForNICRef y (some m)).2 = true ∧
          (FindMappingForNICRef y (some m)).1.Destination.Typ = Pod) := by
  rw [podDup_iff_positions]
  constructor
  · rintro ⟨i, j, x, y, hij, hi, hj, hx, hy⟩
    simp only [resolvesPod, Bool.and_eq_true, decide_eq_true_eq] at hx hy
    exact ⟨i, j, x, y, by omega, hi, hj, hx, hy⟩
  · rintro ⟨i, j, x, y, hij, hi, hj, hx, hy⟩
    have hx2 : resolvesPod (some m) x = true := by
      simp only [resolvesPod, Bool.and_eq_true, decide_eq_true_eq]; exact hx
    have hy2 : resolvesPod (some m) y = true := by
      simp only [resolvesPod, Bool.and_eq_true, decide_eq_true_eq]; exact hy
    rcases Nat.lt_or_gt_of_ne hij with h | h
    · exact ⟨i, j, x, y, h, hi, hj, hx2, hy2⟩
    · exact ⟨j, i, y, x, h, hj, hi, hy2, hx2⟩

/-- C2, as stated, fails: the two references of `refsNet12` resolve through
`mapSlashNADs` to the multus destinations (`a/b`, `c`) and (`a`, `b/c`), which
differ as (namespace, name) pairs, yet `foundNadDup` is true because both are
counted under the key `a/b/c`. -/
theorem C2_counterexample_slash_in_namespace :
    List.Pairwise (fun x y => destIdOf (some mapSlashNADs) x ≠ destIdOf (some mapSlashNADs) y)
        (refsNet12.filter (resolvesMultus (some mapSlashNADs))) ∧
      (ValidateNetworkDuplicates refsNet12 (some mapSlashNADs)).1 = true := by
  decide

/-- C2, amended: for every reference list and every network map, if the
references that resolve to multus entries resolve to destinations whose counter
keys `namespace/name` (the string the code counts under) are pairwise different,
then `foundNadDup` is false. -/
theorem C2_distinct_keys_no_nadDup (nicRefs : List Ref) (networkMap : Option NetworkMap)
    (h : List.Pairwise
      (fun x y =>
        nadKeyOf (destOf networkMap x).Namespace (destOf networkMap x).Name ≠
          nadKeyOf (destOf networkMap y).Namespace (destOf networkMap y).Name)
      (nicRefs.filter (resolvesMultus networkMap))) :
    (ValidateNetworkDuplicates nicRefs networkMap).1 = false := by
  have hle : ∀ k, nicRefs.countP (resolvesKey networkMap k) ≤ 1 :=
    fun k => countP_resolvesKey_le_one networkMap k nicRefs h
  cases hv : (ValidateNetworkDuplicates nicRefs networkMap).1 with
  | false => rfl
  | true =>
    obtain ⟨k, hk⟩ := (nadDup_iff_count nicRefs networkMap).1 hv
    have := hle k
    omega

/-- Witness for C2 (amended) on `TestValidateNetworkDuplicates_DistinctNADs`. -/
theorem C2_distinct_keys_no_nadDup_witness :
    (ValidateNetworkDuplicates refsNet12 (some mapDistinctNADs)).1 = false :=
  C2_distinct_keys_no_nadDup refsNet12 (some mapDistinctNADs) (by decide)

/-- C3: if two different positions of the reference list hold references (equal
or not) that resolve to entries of destination type `multus` with the same
destination namespace and the same destination name, then `foundNadDup` is
true. -/
theorem C3_same_nad_twice_sets_nadDup (nicRefs : List Ref) (networkMap : Option NetworkMap)
    (i j : Nat) (x y : Ref) (hij : i ≠ j)
    (hi : nicRefs[i]? = some x) (hj : nicRefs[j]? = some y)
    (hx : (FindMappingForNICRef x networkMap).2 = true)
    (hxm : (FindMappingForNICRef x networkMap).1.Destination.Typ = Multus)
    (hy : (FindMappingForNICRef y networkMap).2 = true)
    (hym : (FindMappingForNICRef y networkMap).1.Destination.Typ = Multus)
    (hns : (FindMappingForNICRef x networkMap).1.Destination.Namespace =
      (FindMappingForNICRef y networkMap).1.Destination.Namespace)
    (hname : (FindMappingForNICRef x networkMap).1.Destination.Name =
      (FindMappingForNICRef y networkMap).1.Destination.Name) :
    (ValidateNetworkDuplicates nicRefs networkMap).1 = true := by
  rw [nadDup_iff_positions]
  have hx2 : resolvesMultus networkMap x = true := by simp [resolvesMultus, hx, hxm]
  have hy2 : resolvesMultus networkMap y = true := by simp [resolvesMultus, hy, hym]
  have hk : keyOf networkMap x = keyOf networkMap y := by
    simp only [keyOf, destOf, hns, hname]
  rcases Nat.lt_or_gt_of_ne hij with h | h
  · exact ⟨i, j, x, y, h, hi, hj, hx2, hy2, hk⟩
  · exact ⟨j, i, y, x, h, hj, hi, hy2, hx2, hk.symm⟩

/-- Witness for C3 on `TestValidateNetworkDuplicates_DuplicateNAD_ByNameNamespace`:
two different source networks mapped to the NAD `ns/nad-a`. -/
theorem C3_same_nad_twice_sets_nadDup_witness :
    (ValidateNetworkDuplicates refsNsNet12 (some mapSameNAD)).1 = true :=
  C3_same_nad_twice_sets_nadDup refsNsNet12 (some mapSameNAD) 0 1
    ⟨"", "", "ns", "net-1"⟩ ⟨"", "", "ns", "net-2"⟩
    (by decide) (by decide) (by decide) (by decide) (by decide) (by decide) (by decide)
    (by decide) (by decide)

/-- C4: for every network map and every reference `u` that
`FindMappingForNICRef` reports not-found, inserting `u` into a reference list,
at any positions and any number of times, leaves both results of
`ValidateNetworkDuplicates` unchanged. -/
theorem C4_unmapped_refs_do_not_count (networkMap : Option NetworkMap) (u : Ref)
    (hu : (FindMappingForNICRef u networkMap).2 = false)
    (nicRefs : List Ref) (positions : List Nat) :
    ValidateNetworkDuplicates (positions.foldl (fun l i => l.insertIdx i u) nicRefs) networkMap =
      ValidateNetworkDuplicates nicRefs networkMap := by
  induction positions generalizing nicRefs with
  | nil => rfl
  | cons i rest ih =>
    rw [List.foldl_cons, ih, validate_insertIdx_unmapped networkMap u hu]

/-- Witness for C4 on `TestValidateNetworkDuplicates_UnmappedNICIgnored`: the
unmapped reference `{ID: "net-999"}` inserted after, before and again after the
mapped reference `{ID: "net-1"}`. -/
theorem C4_unmapped_refs_do_not_count_witness :
    ValidateNetworkDuplicates
        ([1, 0, 3].foldl (fun l i => l.insertIdx i (⟨"net-999", "t", "ns", "n"⟩ : Ref))
          [⟨"net-1", "", "", ""⟩])
        (some mapSingleNAD) =
      ValidateNetworkDuplicates [⟨"net-1", "", "", ""⟩] (some mapSingleNAD) :=
  C4_unmapped_refs_do_not_count (some mapSingleNAD) ⟨"net-999", "t", "ns", "n"⟩ (by decide)
    [⟨"net-1", "", "", ""⟩] [1, 0, 3]

/-- C10: with a nil network map `ValidateNetworkDuplicates` returns
`(false, false)` for every reference list. -/
theorem C10_nil_map_no_duplicates (nicRefs : List Ref) :
    ValidateNetworkDuplicates nicRefs none = (false, false) := by
  rfl

/-! ## Resolution precedence: the claims -/

/-- With a non-empty ID and an entry `A` of the map carrying that source ID,
`FindMappingForNICRef` reports found with an entry of the map whose source ID
equals the reference's ID; that entry is not an entry `B` lacking the ID, and it
is `A` when `A` is the only entry with that ID. -/
theorem find_by_id_of_mem (m : NetworkMap) (r : Ref) (A B : NetworkPair)
    (hid : r.ID ≠ "") (hA : A ∈ m.Map) (hAid : A.Source.ID = r.ID) :
    (FindMappingForNICRef r (some m)).2 = true ∧
      (FindMappingForNICRef r (some m)).1 ∈ m.Map ∧
      (FindMappingForNICRef r (some m)).1.Source.ID = r.ID ∧
      (B.Source.ID ≠ r.ID → (FindMappingForNICRef r (some m)).1 ≠ B) ∧
      ((∀ e ∈ m.Map, e.Source.ID = r.ID → e = A) → (FindMappingForNICRef r (some m)).1 = A) := by
  rw [find_of_id m r hid]
  have hf : (scanEntries (fun e => decide (e.Source.ID = r.ID)) m.Map).2 = true :=
    (scanEntries_found_iff _ _).2 ⟨A, hA, by simpa using hAid⟩
  have hs := scanEntries_found_spec _ _ hf
  have hsid : (scanEntries (fun e => decide (e.Source.ID = r.ID)) m.Map).1.Source.ID = r.ID := by
    simpa using hs.2
  refine ⟨hf, hs.1, hsid, ?_, ?_⟩
  · intro hne heq
    rw [heq] at hsid
    exact hne hsid
  · intro huniq
    exact huniq _ hs.1 hsid

/-- C5, as stated, fails: in `mapSharedId` the entry `pairById` carries the
reference's non-empty ID and the different entry `pairByIdAndName` carries the
reference's non-empty (namespace, name), yet the entry returned is
`pairByIdAndName`, with its destination `ns/nad-b` and not the destination
`ns/nad-a` of `pairById`. -/
theorem C5_counterexample_shared_id :
    refIdAndName.ID ≠ "" ∧ refIdAndName.Name ≠ "" ∧ refIdAndName.Namespace ≠ "" ∧
      pairById ∈ mapSharedId.Map ∧ pairByIdAndName ∈ mapSharedId.Map ∧
      pairById ≠ pairByIdAndName ∧
      pairById.Source.ID = refIdAndName.ID ∧
      pairByIdAndName.Source.Namespace = refIdAndName.Namespace ∧
      pairByIdAndName.Source.Name = refIdAndName.Name ∧
      FindMappingForNICRef refIdAndName (some mapSharedId) = (pairByIdAndName, true) ∧
      (FindMappingForNICRef refIdAndName (some mapSharedId)).1.Destination ≠
        pairById.Destination := by
  decide

/-- C5, amended: ID takes precedence over (namespace, name).  When the map
contains an entry `A` that is the only entry whose source ID equals the
reference's non-empty ID, and a different entry `B` whose source
(namespace, name) equals the reference's, then wherever `A` and `B` stand in the
map `FindMappingForNICRef` reports found and returns `A` (with `A`'s
destination), not `B`. -/
theorem C5_unique_id_entry_takes_precedence (m : NetworkMap) (r : Ref) (A B : NetworkPair)
    (hid : r.ID ≠ "") (hA : A ∈ m.Map) (hB : B ∈ m.Map) (hAB : A ≠ B)
    (hAid : A.Source.ID = r.ID)
    (huniq : ∀ e ∈ m.Map, e.Source.ID = r.ID → e = A)
    (hBns : B.Source.Namespace = r.Namespace) (hBname : B.Source.Name = r.Name) :
    (FindMappingForNICRef r (some m)).2 = true ∧
      (FindMappingForNICRef r (some m)).1 = A ∧
      (FindMappingForNICRef r (some m)).1.Source.ID = r.ID ∧
      (FindMappingForNICRef r (some m)).1.Destination = A.Destination ∧
      (FindMappingForNICRef r (some m)).1 ≠ B := by
  have hscenario : B ∈ m.Map ∧ B.Source.Namespace = r.Namespace ∧ B.Source.Name = r.Name :=
    ⟨hB, hBns, hBname⟩
  obtain ⟨hf, _, hsid, _, hisA⟩ := find_by_id_of_mem m r A B hid hA hAid
  have hres : (FindMappingForNICRef r (some m)).1 = A := hisA huniq
  refine ⟨hf, hres, hsid, by rw [hres], ?_⟩
  rw [hres]
  exact hAB

/-- Witness for C5 (amended): the name-keyed entry stands first in the map, the
reference carries both keys, and the only ID-keyed entry is returned. -/
theorem C5_unique_id_entry_takes_precedence_witness :
    (FindMappingForNICRef refIdAndName (some mapNameThenId)).2 = true ∧
      (FindMappingForNICRef refIdAndName (some mapNameThenId)).1 = pairById ∧
      (FindMappingForNICRef refIdAndName (some mapNameThenId)).1.Source.ID = refIdAndName.ID ∧
      (FindMappingForNICRef refIdAndName (some mapNameThenId)).1.Destination =
        pairById.Destination ∧
      (FindMappingForNICRef refIdAndName (some mapNameThenId)).1 ≠ pairByName :=
  C5_unique_id_entry_takes_precedence mapNameThenId refIdAndName pairById pairByName
    (by decide) (by decide) (by decide) (by decide) (by decide) (by decide) (by decide)
    (by decide)

/-- C6: no fallback across tiers.  For a non-nil map and a reference with a
non-empty ID, `FindMappingForNICRef` reports found if and only if some entry's
source ID equals the reference's ID, the entry returned when found is an entry
of the map with that source ID, and a reference whose ID matches no entry is
not-found whatever its Type, Namespace and Name are. -/
theorem C6_id_tier_no_fallback (m : NetworkMap) (r : Ref) (hid : r.ID ≠ "") :
    ((FindMappingForNICRef r (some m)).2 = true ↔ ∃ e ∈ m.Map, e.Source.ID = r.ID) ∧
      ((FindMappingForNICRef r (some m)).2 = true →
        (FindMappingForNICRef r (some m)).1 ∈ m.Map ∧
          (FindMappingForNICRef r (some m)).1.Source.ID = r.ID) ∧
      ((∀ e ∈ m.Map, e.Source.ID ≠ r.ID) → (FindMappingForNICRef r (some m)).2 = false) := by
  rw [find_of_id m r hid]
  have hiff : (scanEntries (fun e => decide (e.Source.ID = r.ID)) m.Map).2 = true ↔
      ∃ e ∈ m.Map, e.Source.ID = r.ID := by
    rw [scanEntries_found_iff]
    simp
  refine ⟨hiff, ?_, ?_⟩
  · intro hf
    have hs := scanEntries_found_spec _ _ hf
    exact ⟨hs.1, by simpa using hs.2⟩
  · intro hnone
    cases hv : (scanEntries (fun e => decide (e.Source.ID = r.ID)) m.Map).2 with
    | false => rfl
    | true =>
      obtain ⟨e, he, heq⟩ := hiff.1 hv
      exact absurd heq (hnone e he)

/-- Witness for C6: a reference whose ID `net-999` matches no entry is not
found although its (namespace, name) equals the source of an entry. -/
theorem C6_id_tier_no_fallback_witness :
    (FindMappingForNICRef ⟨"net-999", "", "ns", "net-1"⟩ (some mapNameThenId)).2 = false :=
  (C6_id_tier_no_fallback mapNameThenId ⟨"net-999", "", "ns", "net-1"⟩ (by decide)).2.2
    (by decide)

/-- C7: name tier and the final not-found case.  For a non-nil map and a
reference with empty ID and empty Type, `FindMappingForNICRef` reports found if
and only if the reference's Name is non-empty (the field the code tests to see
whether a (namespace, name) is carried) and some entry's source namespace and
source name both equal the reference's; the entry returned when found is an
entry of the map with that source namespace and name; and a reference with
ID, Type and Name all empty is not-found, whatever its Namespace. -/
theorem C7_name_tier (m : NetworkMap) (r : Ref) (hid : r.ID = "") (htyp : r.Typ = "") :
    ((FindMappingForNICRef r (some m)).2 = true ↔
        r.Name ≠ "" ∧
          ∃ e ∈ m.Map, e.Source.Namespace = r.Namespace ∧ e.Source.Name = r.Name) ∧
      ((FindMappingForNICRef r (some m)).2 = true →
        (FindMappingForNICRef r (some m)).1 ∈ m.Map ∧
          (FindMappingForNICRef r (some m)).1.Source.Namespace = r.Namespace ∧
          (FindMappingForNICRef r (some m)).1.Source.Name = r.Name) ∧
      (r.Name = "" → (FindMappingForNICRef r (some m)).2 = false) := by
  by_cases hname : r.Name = ""
  · rw [find_of_empty (some m) r hid htyp hname]
    simp [hname]
  · rw [find_of_name m r hid htyp hname]
    refine ⟨?_, ?_, fun h => absurd h hname⟩
    · rw [scanEntries_found_iff]
      simp [hname]
    · intro hf
      have hs := scanEntries_found_spec _ _ hf
      have h2 := hs.2
      simp only [Bool.and_eq_true, decide_eq_true_eq] at h2
      exact ⟨hs.1, h2.1, h2.2⟩

/-- Witness for C7 on `TestFindMappingForNICRef_ByNameNamespace`. -/
theorem C7_name_tier_witness :
    (FindMappingForNICRef ⟨"", "", "ns", "net-1"⟩ (some mapSameNAD)).1.Source.Name = "net-1" :=
  ((C7_name_tier mapSameNAD ⟨"", "", "ns", "net-1"⟩ (by decide) (by decide)).2.1
    (by decide)).2.2

/-- C8: type tier.  For a non-nil map and a reference with empty ID and
non-empty Type, `FindMappingForNICRef` reports found if and only if some entry's
source Type equals the reference's Type, the entry returned when found is an
entry of the map with that source Type, and replacing the reference's Namespace
and Name by any other strings does not change the result. -/
theorem C8_type_tier (m : NetworkMap) (r : Ref) (hid : r.ID = "") (htyp : r.Typ ≠ "") :
    ((FindMappingForNICRef r (some m)).2 = true ↔ ∃ e ∈ m.Map, e.Source.Typ = r.Typ) ∧
      ((FindMappingForNICRef r (some m)).2 = true →
        (FindMappingForNICRef r (some m)).1 ∈ m.Map ∧
          (FindMappingForNICRef r (some m)).1.Source.Typ = r.Typ) ∧
      (∀ ns name : String,
        FindMappingForNICRef ⟨r.ID, r.Typ, ns, name⟩ (some m) =
          FindMappingForNICRef r (some m)) := by
  refine ⟨?_, ?_, ?_⟩
  · rw [find_of_type m r hid htyp, scanEntries_found_iff]
    simp
  · rw [find_of_type m r hid htyp]
    intro hf
    have hs := scanEntries_found_spec _ _ hf
    exact ⟨hs.1, by simpa using hs.2⟩
  · intro ns name
    rw [find_of_type m r hid htyp, find_of_type m ⟨r.ID, r.Typ, ns, name⟩ hid htyp]

/-- Witness for C8 on `TestFindMappingForNICRef_ByType`, the reference carrying
a (namespace, name) that matches nothing. -/
theorem C8_type_tier_witness :
    (FindMappingForNICRef ⟨"", "pod", "other-ns", "other"⟩ (some mapByType)).2 = true :=
  (C8_type_tier mapByType ⟨"", "pod", "other-ns", "other"⟩ (by decide) (by decide)).1.2
    ⟨⟨⟨"", "pod", "", ""⟩, ⟨Pod, "", ""⟩⟩, by decide, by decide⟩

/-- C9: with a nil network map `FindMappingForNICRef` returns the zero-valued
pair and `found = false` for every reference, which is also its result on a map
with an empty entry list. -/
theorem C9_nil_map_not_found (r : Ref) :
    FindMappingForNICRef r none = (NetworkPair.zero, false) ∧
      FindMappingForNICRef r none = FindMappingForNICRef r (some ⟨[]⟩) := by
  refine ⟨rfl, ?_⟩
  simp only [FindMappingForNICRef, NetworkMap.FindNetwork, NetworkMap.FindNetworkByType,
    NetworkMap.FindNetworkByNameAndNamespace, scanEntries]
  split_ifs <;> rfl

/-! ## Short reference lists and the order of the flags: the claims -/

/-- C11: for every network map (nil or not, whatever its entries) and every
reference list of length zero or one, `ValidateNetworkDuplicates` returns
`(false, false)`. -/
theorem C11_at_most_one_ref_no_duplicates (nicRefs : List Ref) (networkMap : Option NetworkMap)
    (hlen : nicRefs.length ≤ 1) :
    ValidateNetworkDuplicates nicRefs networkMap = (false, false) := by
  have h1 : (ValidateNetworkDuplicates nicRefs networkMap).1 = false := by
    cases hv : (ValidateNetworkDuplicates nicRefs networkMap).1 with
    | false => rfl
    | true =>
      obtain ⟨k, hk⟩ := (nadDup_iff_count nicRefs networkMap).1 hv
      have := List.countP_le_length (resolvesKey networkMap k) (l := nicRefs)
      omega
  have h2 : (ValidateNetworkDuplicates nicRefs networkMap).2 = false := by
    cases networkMap with
    | none => rfl
    | some m =>
      have := List.countP_le_length (resolvesPod (some m)) (l := nicRefs)
      simp only [ValidateNetworkDuplicates, countLoop_fst, decide_eq_false_iff_not]
      omega
  exact Prod.ext h1 h2

/-- Witness for C11 on `TestNICNetworkRefs_VMOnlyUsesOneOfDuplicateMappings`: the
map holds two entries for one destination, the VM uses one of them. -/
theorem C11_at_most_one_ref_no_duplicates_witness :
    ValidateNetworkDuplicates [⟨"", "", "test-ns", "net-1"⟩] (some mapDuplicateMappings) =
      (false, false) :=
  C11_at_most_one_ref_no_duplicates [⟨"", "", "test-ns", "net-1"⟩] (some mapDuplicateMappings)
    (by decide)

/-- C12, as stated, fails: on `TestValidateNetworkDuplicates_DuplicatePod` two
references resolve to pod entries and none to a multus entry, yet the first
component of the result is false and the second is true. -/
theorem C12_counterexample_flag_order :
    (∃ (i j : Nat) (x y : Ref), i ≠ j ∧ refsPodAndNet1[i]? = some x ∧
        refsPodAndNet1[j]? = some y ∧ resolvesPod (some mapDuplicatePod) x = true ∧
        resolvesPod (some mapDuplicatePod) y = true) ∧
      List.Pairwise
        (fun x y => destIdOf (some mapDuplicatePod) x ≠ destIdOf (some mapDuplicatePod) y)
        (refsPodAndNet1.filter (resolvesMultus (some mapDuplicatePod))) ∧
      ¬ ((ValidateNetworkDuplicates refsPodAndNet1 (some mapDuplicatePod)).1 = true ∧
        (ValidateNetworkDuplicates refsPodAndNet1 (some mapDuplicatePod)).2 = false) := by
  refine ⟨⟨0, 1, ⟨"", "pod", "", ""⟩, ⟨"net-1", "", "", ""⟩, ?_⟩, ?_, ?_⟩ <;> decide

/-- C12, amended: the flags are returned in the order (foundNadDup, foundPodDup).
For every reference list in which two positions resolve to pod entries and the
references resolving to multus entries have pairwise different counter keys
`namespace/name`, the first component of the result is false and the second is
true. -/
theorem C12_nad_flag_first_pod_flag_second (nicRefs : List Ref) (networkMap : Option NetworkMap)
    (i j : Nat) (x y : Ref) (hij : i ≠ j)
    (hi : nicRefs[i]? = some x) (hj : nicRefs[j]? = some y)
    (hx : (FindMappingForNICRef x networkMap).2 = true ∧
      (FindMappingForNICRef x networkMap).1.Destination.Typ = Pod)
    (hy : (FindMappingForNICRef y networkMap).2 = true ∧
      (FindMappingForNICRef y networkMap).1.Destination.Typ = Pod)
    (hkeys : List.Pairwise
      (fun a b =>
        nadKeyOf (destOf networkMap a).Namespace (destOf networkMap a).Name ≠
          nadKeyOf (destOf networkMap b).Namespace (destOf networkMap b).Name)
      (nicRefs.filter (resolvesMultus networkMap))) :
    (ValidateNetworkDuplicates nicRefs networkMap).1 = false ∧
      (ValidateNetworkDuplicates nicRefs networkMap).2 = true := by
  constructor
  · cases hv : (ValidateNetworkDuplicates nicRefs networkMap).1 with
    | false => rfl
    | true =>
      obtain ⟨k, hk⟩ := (nadDup_iff_count nicRefs networkMap).1 hv
      have := countP_resolvesKey_le_one networkMap k nicRefs hkeys
      omega
  · cases networkMap with
    | none => simp [FindMappingForNICRef] at hx
    | some m =>
      rw [podDup_iff_positions]
      have hx2 : resolvesPod (some m) x = true := by
        simp only [resolvesPod, Bool.and_eq_true, decide_eq_true_eq]; exact hx
      have hy2 : resolvesPod (some m) y = true := by
        simp only [resolvesPod, Bool.and_eq_true, decide_eq_true_eq]; exact hy
      rcases Nat.lt_or_gt_of_ne hij with h | h
      · exact ⟨i, j, x, y, h, hi, hj, hx2, hy2⟩
      · exact ⟨j, i, y, x, h, hj, hi, hy2, hx2⟩

/-- Witness for C12 (amended) on `TestValidateNetworkDuplicates_DuplicatePod`. -/
theorem C12_nad_flag_first_pod_flag_second_witness :
    (ValidateNetworkDuplicates refsPodAndNet1 (some mapDuplicatePod)).1 = false ∧
      (ValidateNetworkDuplicates refsPodAndNet1 (some mapDuplicatePod)).2 = true :=
  C12_nad_flag_first_pod_flag_second refsPodAndNet1 (some mapDuplicatePod) 0 1
    ⟨"", "pod", "", ""⟩ ⟨"net-1", "", "", ""⟩ (by decide) (by decide) (by decide)
    (by decide) (by decide) (by decide)

/-! ## Substring search -/

theorem containsFrom_iff_infix (sub l : List Char) :
    containsFrom sub l = true ↔ sub <:+: l := by
  induction l with
  | nil => simp [containsFrom]
  | cons c rest ih =>
    rw [containsFrom, Bool.or_eq_true, ih, List.infix_cons_iff, List.isPrefixOf_iff_prefix]

/-- `stringsContains` holds exactly when the text is the substring framed by
some text before and some text after. -/
theorem stringsContains_iff (s substr : String) :
    stringsContains s substr = true ↔ ∃ pre post : String, s = pre ++ substr ++ post := by
  rw [stringsContains, containsFrom_iff_infix]
  constructor
  · rintro ⟨a, b, hab⟩
    refine ⟨⟨a⟩, ⟨b⟩, ?_⟩
    apply String.ext
    simp only [String.data_append]
    exact hab.symm
  · rintro ⟨pre, post, h⟩
    refine ⟨pre.data, post.data, ?_⟩
    rw [h]
    simp only [String.data_append]

theorem hasNoMatchError_iff (msgs : List String) :
    hasNoMatchError msgs = true ↔ ∃ m ∈ msgs, stringsContains m "[NoMatchError]" = true := by
  induction msgs with
  | nil => simp [hasNoMatchError]
  | cons m rest ih =>
    by_cases hm : stringsContains m "[NoMatchError]" = true
    · simp [hasNoMatchError, hm]
    · simp [hasNoMatchError, hm, ih]

/-! ## The version query -/

theorem runEsx_trace {σ : Type} (env : Remote σ) (st : St σ) (host : HostSystem)
    (args : List String) :
    (runEsx env st host args).2.trace = st.trace ++ [Call.runEsxCommand host args] := rfl

theorem getViBVersion_snd {σ : Type} (env : Remote σ) (st : St σ) (esx : HostSystem) :
    (getViBVersion env st esx).2 = (runEsx env st esx queryArgs).2 := by
  unfold getViBVersion
  split
  · split
    · rfl
    · split
      · split <;> rfl
      · rfl
  · rfl
  · rfl

theorem getViBVersion_trace {σ : Type} (env : Remote σ) (st : St σ) (esx : HostSystem) :
    (getViBVersion env st esx).2.trace = st.trace ++ [Call.runEsxCommand esx queryArgs] := by
  rw [getViBVersion_snd, runEsx_trace]

theorem getViBVersion_ok {σ : Type} (env : Remote σ) (st : St σ) (esx : HostSystem)
    (row : Values) (rows : List Values)
    (hq : (env.RunEsxCommand st.world esx queryArgs).1 = .ok (row :: rows)) :
    (getViBVersion env st esx).1 = .ret (row.Value "Version", none) := by
  have h : (runEsx env st esx ["software", "vib", "get", "-n", vibName]).1 = .ok (row :: rows) :=
    hq
  unfold getViBVersion
  rw [h]

theorem getViBVersion_error {σ : Type} (env : Remote σ) (st : St σ) (esx : HostSystem)
    (err : GoError) (hq : (env.RunEsxCommand st.world esx queryArgs).1 = .error err) :
    (getViBVersion env st esx).1 =
      if (env.ErrToFault err).2 = none ∧
          ∃ vFault, (env.ErrToFault err).1 = some vFault ∧ hasNoMatchError vFault.ErrMsgs = true
      then .ret ("", none) else .ret ("", some err) := by
  have h : (runEsx env st esx ["software", "vib", "get", "-n", vibName]).1 = .error err := hq
  unfold getViBVersion
  rw [h]
  rcases hc : (env.ErrToFault err).2 with _ | ce
  · rcases hf : (env.ErrToFault err).1 with _ | vFault
    · simp [hc, hf]
    · by_cases hm : hasNoMatchError vFault.ErrMsgs = true
      · simp [hc, hf, hm]
      · simp [hc, hf, hm]
  · simp [hc]

/-! ## The hierarchy walk -/

theorem retrieveParent_trace {σ : Type} (env : Remote σ) (st : St σ)
    (ref : ManagedObjectReference) :
    (retrieveParent env st ref).2.trace = st.trace ++ [Call.retrieveParent ref] := rfl

theorem finderDatacenter_trace {σ : Type} (env : Remote σ) (st : St σ) (path : String) :
    (finderDatacenter env st path).2.trace = st.trace ++ [Call.finderDatacenter path] := rfl

theorem fetchAll_trace {σ : Type} (env : Remote σ) (st : St σ)
    (nodes : List ManagedObjectReference) :
    (fetchAll env st nodes).trace = st.trace ++ nodes.map Call.retrieveParent := by
  induction nodes generalizing st with
  | nil => simp [fetchAll]
  | cons n rest ih =>
    have h : fetchAll env st (n :: rest) = fetchAll env (retrieveParent env st n).2 rest := rfl
    rw [h, ih, retrieveParent_trace]
    simp

theorem fetchAll_cons {σ : Type} (env : Remote σ) (st : St σ) (n : ManagedObjectReference)
    (rest : List ManagedObjectReference) :
    fetchAll env st (n :: rest) = fetchAll env (retrieveParent env st n).2 rest := rfl

/-- One iteration of the loop at a node of type `Datacenter`. -/
theorem walkParents_at_datacenter {σ : Type} (env : Remote σ) (esx : HostSystem) (fuel : Nat)
    (st : St σ) (cur : ManagedObjectReference) (hd : cur.Typ = "Datacenter") :
    walkParents env esx (fuel + 1) st (some cur) =
      some (.ret (finderDatacenter env st cur.String).1, (finderDatacenter env st cur.String).2) := by
  rw [walkParents, if_pos hd]
  cases (finderDatacenter env st cur.String).1 <;> rfl

/-- One iteration of the loop at a node of another type whose parent is fetched. -/
theorem walkParents_step {σ : Type} (env : Remote σ) (esx : HostSystem) (fuel : Nat)
    (st : St σ) (cur parent : ManagedObjectReference) (hd : cur.Typ ≠ "Datacenter")
    (hp : (env.RetrieveParent st.world cur).1 = .ok (some parent)) :
    walkParents env esx (fuel + 1) st (some cur) =
      walkParents env esx fuel (retrieveParent env st cur).2 (some parent) := by
  have h : (retrieveParent env st cur).1 = .ok (some parent) := hp
  rw [walkParents, if_neg hd, h]

/-- One iteration of the loop at a node of another type without a parent. -/
theorem walkParents_at_root {σ : Type} (env : Remote σ) (esx : HostSystem) (fuel : Nat)
    (st : St σ) (cur : ManagedObjectReference) (hd : cur.Typ ≠ "Datacenter")
    (hp : (env.RetrieveParent st.world cur).1 = .ok none) :
    walkParents env esx (fuel + 1) st (some cur) =
      some (.ret (.error (.errorf ("could not determine datacenter for host '" ++ esx.Name ++ "'."))),
        (retrieveParent env st cur).2) := by
  have h : (retrieveParent env st cur).1 = .ok none := hp
  rw [walkParents, if_neg hd, h]

/-- One iteration of the loop at a node of another type whose parent fetch fails. -/
theorem walkParents_at_failure {σ : Type} (env : Remote σ) (esx : HostSystem) (fuel : Nat)
    (st : St σ) (cur : ManagedObjectReference) (err : GoError) (hd : cur.Typ ≠ "Datacenter")
    (hp : (env.RetrieveParent st.world cur).1 = .error err) :
    walkParents env esx (fuel + 1) st (some cur) =
      some (.fatal "failed to retrieve intermediate parent" err, (retrieveParent env st cur).2) := by
  have h : (retrieveParent env st cur).1 = .error err := hp
  rw [walkParents, if_neg hd, h]

/-- A walk that has ended keeps its result when allowed more iterations. -/
theorem walkParents_mono {σ : Type} (env : Remote σ) (esx : HostSystem) (fuel extra : Nat)
    (st : St σ) (cur : Option ManagedObjectReference)
    (r : Outcome (Except GoError Datacenter) × St σ)
    (h : walkParents env esx fuel st cur = some r) :
    walkParents env esx (fuel + extra) st cur = some r := by
  induction fuel generalizing st cur with
  | zero => simp [walkParents] at h
  | succ n ih =>
    have hn : n + 1 + extra = (n + extra) + 1 := by omega
    rw [hn]
    cases cur with
    | none => simpa [walkParents] using h
    | some c =>
      by_cases hd : c.Typ = "Datacenter"
      · rw [walkParents_at_datacenter env esx _ st c hd] at h ⊢
        exact h
      · rcases hp : (env.RetrieveParent st.world c).1 with err | _ | parent
        · rw [walkParents_at_failure env esx _ st c err hd hp] at h ⊢
          exact h
        · rw [walkParents_at_root env esx _ st c hd hp] at h ⊢
          exact h
        · rw [walkParents_step env esx _ st c parent hd hp] at h ⊢
          exact ih _ _ h

/-- The walk only adds parent fetches and finder lookups to the trace. -/
theorem walkParents_trace {σ : Type} (env : Remote σ) (esx : HostSystem) (fuel : Nat)
    (st : St σ) (cur : Option ManagedObjectReference)
    (r : Outcome (Except GoError Datacenter) × St σ)
    (h : walkParents env esx fuel st cur = some r) :
    ∃ ext, r.2.trace = st.trace ++ ext ∧ ∀ c ∈ ext, c.isResolve = true := by
  induction fuel generalizing st cur with
  | zero => simp [walkParents] at h
  | succ n ih =>
    cases cur with
    | none =>
      simp only [walkParents, Option.some.injEq] at h
      subst h
      exact ⟨[], by simp, by simp⟩
    | some c =>
      by_cases hd : c.Typ = "Datacenter"
      · rw [walkParents_at_datacenter env esx _ st c hd, Option.some.injEq] at h
        subst h
        exact ⟨[Call.finderDatacenter c.String], rfl, by simp [Call.isResolve]⟩
      · rcases hp : (env.RetrieveParent st.world c).1 with err | _ | parent
        · rw [walkParents_at_failure env esx _ st c err hd hp, Option.some.injEq] at h
          subst h
          exact ⟨[Call.retrieveParent c], rfl, by simp [Call.isResolve]⟩
        · rw [walkParents_at_root env esx _ st c hd hp, Option.some.injEq] at h
          subst h
          exact ⟨[Call.retrieveParent c], rfl, by simp [Call.isResolve]⟩
        · rw [walkParents_step env esx _ st c parent hd hp] at h
          obtain ⟨ext, hext, hall⟩ := ih _ _ h
          refine ⟨Call.retrieveParent c :: ext, ?_, ?_⟩
          · rw [hext, retrieveParent_trace]
            simp
          · intro x hx
            rcases List.mem_cons.1 hx with h1 | h1
            · subst h1
              rfl
            · exact hall x h1

/-- A walk along non-datacenter nodes `init` up to a node `d` of type
`Datacenter` fetches the parent of every node of `init`, in order, and returns
what the finder answers for `d`. -/
theorem walkParents_reaches_datacenter {σ : Type} (env : Remote σ) (esx : HostSystem)
    (init : List ManagedObjectReference) (d : ManagedObjectReference) (extra : Nat)
    (hinit : ∀ a ∈ init, a.Typ ≠ "Datacenter") (hd : d.Typ = "Datacenter")
    (cur : ManagedObjectReference) (rest : List ManagedObjectReference)
    (hshape : cur :: rest = init ++ [d]) (hanc : Ancestors env cur rest) (st : St σ) :
    walkParents env esx (init.length + 1 + extra) st (some cur) =
      some (.ret (finderDatacenter env (fetchAll env st init) d.String).1,
        (finderDatacenter env (fetchAll env st init) d.String).2) := by
  induction init generalizing cur rest st with
  | nil =>
    simp only [List.nil_append, List.cons.injEq] at hshape
    obtain ⟨hc, _⟩ := hshape
    subst hc
    have hn : ([] : List ManagedObjectReference).length + 1 + extra = extra + 1 := by simp; omega
    rw [hn, walkParents_at_datacenter env esx _ st cur hd]
    rfl
  | cons i init ih =>
    simp only [List.cons_append, List.cons.injEq] at hshape
    obtain ⟨hc, hrest⟩ := hshape
    subst hc
    have hcur : cur.Typ ≠ "Datacenter" := hinit cur (List.mem_cons_self _ _)
    cases rest with
    | nil => simp at hrest
    | cons a rest2 =>
      obtain ⟨hfetch, hanc2⟩ := hanc
      have hn : (cur :: init).length + 1 + extra = (init.length + 1 + extra) + 1 := by
        simp only [List.length_cons]
        omega
      rw [hn, walkParents_step env esx _ st cur a hcur (hfetch st.world), fetchAll_cons]
      exact ih (fun x hx => hinit x (List.mem_cons_of_mem _ hx)) a rest2 hrest hanc2 _

/-- A walk along non-datacenter nodes ending at a node without a parent fetches
the parent of every node, in order, and returns the not-found error. -/
theorem walkParents_reaches_root {σ : Type} (env : Remote σ) (esx : HostSystem)
    (init : List ManagedObjectReference) (d : ManagedObjectReference) (extra : Nat)
    (hinit : ∀ a ∈ init, a.Typ ≠ "Datacenter") (hd : d.Typ ≠ "Datacenter")
    (hroot : ∀ w, (env.RetrieveParent w d).1 = .ok none)
    (cur : ManagedObjectReference) (rest : List ManagedObjectReference)
    (hshape : cur :: rest = init ++ [d]) (hanc : Ancestors env cur rest) (st : St σ) :
    walkParents env esx (init.length + 1 + extra) st (some cur) =
      some (.ret (.error (.errorf ("could not determine datacenter for host '" ++ esx.Name ++ "'."))),
        fetchAll env st (init ++ [d])) := by
  induction init generalizing cur rest st with
  | nil =>
    simp only [List.nil_append, List.cons.injEq] at hshape
    obtain ⟨hc, _⟩ := hshape
    subst hc
    have hn : ([] : List ManagedObjectReference).length + 1 + extra = extra + 1 := by simp; omega
    rw [hn, walkParents_at_root env esx _ st cur hd (hroot st.world)]
    rfl
  | cons i init ih =>
    simp only [List.cons_append, List.cons.injEq] at hshape
    obtain ⟨hc, hrest⟩ := hshape
    subst hc
    have hcur : cur.Typ ≠ "Datacenter" := hinit cur (List.mem_cons_self _ _)
    cases rest with
    | nil => simp at hrest
    | cons a rest2 =>
      obtain ⟨hfetch, hanc2⟩ := hanc
      have hn : (cur :: init).length + 1 + extra = (init.length + 1 + extra) + 1 := by
        simp only [List.length_cons]
        omega
      rw [hn, walkParents_step env esx _ st cur a hcur (hfetch st.world), List.cons_append,
        fetchAll_cons]
      exact ih (fun x hx => hinit x (List.mem_cons_of_mem _ hx)) a rest2 hrest hanc2 _

theorem getHostDC_of_parent {σ : Type} (env : Remote σ) (fuel : Nat) (st : St σ)
    (esx : HostSystem) (parentRef : Option ManagedObjectReference)
    (hp : (env.RetrieveParent st.world esx.Reference).1 = .ok parentRef) :
    getHostDC env fuel st esx =
      walkParents env esx fuel (retrieveParent env st esx.Reference).2 parentRef := by
  have h : (retrieveParent env st esx.Reference).1 = .ok parentRef := hp
  rw [getHostDC, h]

theorem getHostDC_of_failure {σ : Type} (env : Remote σ) (fuel : Nat) (st : St σ)
    (esx : HostSystem) (err : GoError)
    (hp : (env.RetrieveParent st.world esx.Reference).1 = .error err) :
    getHostDC env fuel st esx =
      some (.fatal "failed to retrieve host parent" err, (retrieveParent env st esx.Reference).2) := by
  have h : (retrieveParent env st esx.Reference).1 = .error err := hp
  rw [getHostDC, h]

/-- Datacenter resolution only adds parent fetches and finder lookups to the trace. -/
theorem getHostDC_trace {σ : Type} (env : Remote σ) (fuel : Nat) (st : St σ) (esx : HostSystem)
    (r : Outcome (Except GoError Datacenter) × St σ) (h : getHostDC env fuel st esx = some r) :
    ∃ ext, r.2.trace = st.trace ++ ext ∧ ∀ c ∈ ext, c.isResolve = true := by
  rcases hp : (env.RetrieveParent st.world esx.Reference).1 with err | parentRef
  · rw [getHostDC_of_failure env fuel st esx err hp, Option.some.injEq] at h
    subst h
    exact ⟨[Call.retrieveParent esx.Reference], rfl, by simp [Call.isResolve]⟩
  · rw [getHostDC_of_parent env fuel st esx parentRef hp] at h
    obtain ⟨ext, hext, hall⟩ := walkParents_trace env esx fuel _ _ r h
    refine ⟨Call.retrieveParent esx.Reference :: ext, ?_, ?_⟩
    · rw [hext, retrieveParent_trace]
      simp
    · intro x hx
      rcases List.mem_cons.1 hx with h1 | h1
      · subst h1
        rfl
      · exact hall x h1

/-- Datacenter resolution that has ended keeps its result when allowed more iterations. -/
theorem getHostDC_mono {σ : Type} (env : Remote σ) (fuel extra : Nat) (st : St σ)
    (esx : HostSystem) (r : Outcome (Except GoError Datacenter) × St σ)
    (h : getHostDC env fuel st esx = some r) :
    getHostDC env (fuel + extra) st esx = some r := by
  rcases hp : (env.RetrieveParent st.world esx.Reference).1 with err | parentRef
  · rw [getHostDC_of_failure env _ st esx err hp] at h ⊢
    exact h
  · rw [getHostDC_of_parent env _ st esx parentRef hp] at h ⊢
    exact walkParents_mono env esx fuel extra _ _ r h

theorem newCalls_of_trace {σ : Type} (before after : St σ) (ext : List Call)
    (h : after.trace = before.trace ++ ext) : newCalls before after = ext := by
  rw [newCalls, h, List.drop_left]

/-- A chain of ancestors that ends, without a datacenter, at a node with no
parent: every parent is fetched and the not-found error is returned. -/
theorem getHostDC_chain_without_datacenter {σ : Type} (env : Remote σ) (st : St σ)
    (esx : HostSystem) (init : List ManagedObjectReference) (d : ManagedObjectReference)
    (extra : Nat) (hanc : Ancestors env esx.Reference (init ++ [d]))
    (hinit : ∀ a ∈ init, a.Typ ≠ "Datacenter") (hd : d.Typ ≠ "Datacenter")
    (hroot : ∀ w, (env.RetrieveParent w d).1 = .ok none) :
    getHostDC env (init.length + 1 + extra) st esx =
      some (.ret (.error (.errorf ("could not determine datacenter for host '" ++ esx.Name ++ "'."))),
        fetchAll env st (esx.Reference :: (init ++ [d]))) := by
  rcases hshape : init ++ [d] with _ | ⟨a, rest⟩
  · simp at hshape
  · rw [hshape] at hanc
    obtain ⟨hfetch, hanc2⟩ := hanc
    rw [getHostDC_of_parent env _ st esx (some a) (hfetch st.world),
      walkParents_reaches_root env esx init d extra hinit hd hroot a rest hshape.symm hanc2,
      fetchAll_cons, hshape]

/-- The two folders of `simHierarchyCycle` keep the loop running for any number
of iterations. -/
theorem walkParents_cycle (fuel : Nat) (st : St (Option String)) :
    walkParents (simRemote simHierarchyCycle "1.0") simHost fuel st (some ⟨"Folder", "group-a"⟩) =
        none ∧
      walkParents (simRemote simHierarchyCycle "1.0") simHost fuel st (some ⟨"Folder", "group-b"⟩) =
        none := by
  induction fuel generalizing st with
  | zero => exact ⟨rfl, rfl⟩
  | succ n ih =>
    constructor
    · rw [walkParents_step _ simHost n st ⟨"Folder", "group-a"⟩ ⟨"Folder", "group-b"⟩
        (by decide) rfl]
      exact (ih _).2
    · rw [walkParents_step _ simHost n st ⟨"Folder", "group-b"⟩ ⟨"Folder", "group-a"⟩
        (by decide) rfl]
      exact (ih _).1

/-! ## The hierarchy walk: the claims -/

/-- C16 fails on the code: when the fetch of the host's own parent fails, and
when the fetch of an intermediate node's parent fails, `getHostDC` does not
return an error to its caller; `klog.Fatalf` ends the process. -/
theorem C16_fetch_failure_ends_the_process :
    (∀ fuel, getHostDC (simRemote [] "1.0") fuel (simState none) simHost =
        some (.fatal "failed to retrieve host parent" (.remote "ManagedObjectNotFound"),
          ⟨none, [.retrieveParent ⟨"HostSystem", "host-9"⟩]⟩)) ∧
      (∀ fuel, getHostDC (simRemote simHierarchyBroken "1.0") (fuel + 1) (simState none) simHost =
        some (.fatal "failed to retrieve intermediate parent" (.remote "ManagedObjectNotFound"),
          ⟨none, [.retrieveParent ⟨"HostSystem", "host-9"⟩,
            .retrieveParent ⟨"ClusterComputeResource", "domain-c7"⟩]⟩)) := by
  constructor
  · intro fuel
    rw [getHostDC_of_failure _ fuel _ simHost (.remote "ManagedObjectNotFound") rfl]
    rfl
  · intro fuel
    rw [getHostDC_of_parent _ _ _ simHost (some ⟨"ClusterComputeResource", "domain-c7"⟩) rfl,
      walkParents_at_failure _ simHost fuel _ ⟨"ClusterComputeResource", "domain-c7"⟩
        (.remote "ManagedObjectNotFound") (by decide) rfl]
    rfl

/-- C17: in a hierarchy where the host's ancestors, nearest first, are the
non-datacenter nodes `init` followed by a node `d` of type `Datacenter` (so `d`
is the N-th ancestor, N = `init.length + 1`) and every parent fetch along the
chain succeeds, `getHostDC` ends within N iterations, having made exactly the N
parent fetches of the host and of the nodes of `init`, in order, followed by one
finder lookup for `d`, and returns what the finder answered for `d`. -/
theorem C17_walk_ends_after_N_fetches {σ : Type} (env : Remote σ) (st : St σ) (esx : HostSystem)
    (init : List ManagedObjectReference) (d : ManagedObjectReference) (extra : Nat)
    (hanc : Ancestors env esx.Reference (init ++ [d]))
    (hinit : ∀ a ∈ init, a.Typ ≠ "Datacenter") (hd : d.Typ = "Datacenter") :
    getHostDC env (init.length + 1 + extra) st esx =
        some (.ret (finderDatacenter env (fetchAll env st (esx.Reference :: init)) d.String).1,
          (finderDatacenter env (fetchAll env st (esx.Reference :: init)) d.String).2) ∧
      newCalls st (finderDatacenter env (fetchAll env st (esx.Reference :: init)) d.String).2 =
        (esx.Reference :: init).map Call.retrieveParent ++ [Call.finderDatacenter d.String] ∧
      (newCalls st
        (finderDatacenter env (fetchAll env st (esx.Reference :: init)) d.String).2).countP
          Call.isFetch = init.length + 1 := by
  have htrace : newCalls st
      (finderDatacenter env (fetchAll env st (esx.Reference :: init)) d.String).2 =
        (esx.Reference :: init).map Call.retrieveParent ++ [Call.finderDatacenter d.String] := by
    apply newCalls_of_trace
    rw [finderDatacenter_trace, fetchAll_trace, List.append_assoc]
  refine ⟨?_, htrace, ?_⟩
  · rcases hshape : init ++ [d] with _ | ⟨a, rest⟩
    · simp at hshape
    · rw [hshape] at hanc
      obtain ⟨hfetch, hanc2⟩ := hanc
      rw [getHostDC_of_parent env _ st esx (some a) (hfetch st.world),
        walkParents_reaches_datacenter env esx init d extra hinit hd a rest hshape.symm hanc2,
        fetchAll_cons]
  · rw [htrace, List.countP_append, List.countP_map]
    have hall : List.countP (Call.isFetch ∘ Call.retrieveParent) (esx.Reference :: init) =
        (esx.Reference :: init).length := by
      rw [List.countP_eq_length]
      intro a _
      rfl
    rw [hall]
    simp [Call.isFetch]

/-- Witness for C17 on `simHierarchy`: the datacenter is the host's third
ancestor and is resolved after three parent fetches. -/
theorem C17_walk_ends_after_N_fetches_witness :
    getHostDC (simRemote simHierarchy "1.0") 3 (simState none) simHost =
      some (.ret (.ok ⟨⟨"Datacenter", "Datacenter:datacenter-2"⟩, "/Datacenter:datacenter-2"⟩),
        ⟨none, [.retrieveParent ⟨"HostSystem", "host-9"⟩,
          .retrieveParent ⟨"ClusterComputeResource", "domain-c7"⟩,
          .retrieveParent ⟨"Folder", "group-h4"⟩,
          .finderDatacenter "Datacenter:datacenter-2"]⟩) :=
  (C17_walk_ends_after_N_fetches (simRemote simHierarchy "1.0") (simState none) simHost
    [⟨"ClusterComputeResource", "domain-c7"⟩, ⟨"Folder", "group-h4"⟩]
    ⟨"Datacenter", "datacenter-2"⟩ 0
    ⟨fun _ => rfl, fun _ => rfl, fun _ => rfl, trivial⟩ (by decide) rfl).1

/-- C18 fails on the code for the chain of length zero: when the host's own
parent reference is absent, the loop reads `currentParentRef.Type` through a nil
pointer and panics instead of returning an error. -/
theorem C18_absent_host_parent_panics :
    ∀ fuel, getHostDC (simRemote simHierarchyOrphan "1.0") (fuel + 1) (simState none) simHost =
      some (.panicked "nil pointer dereference",
        ⟨none, [.retrieveParent ⟨"HostSystem", "host-9"⟩]⟩) := by
  intro fuel
  rw [getHostDC_of_parent _ _ _ simHost none rfl]
  rfl

/-- C19, as stated, fails: in `simHierarchyCycle` the host's parent `group-a` has
the parent `group-b`, whose parent is `group-a` again, no node is of type
`Datacenter`, every fetch succeeds, and the walk has not ended after any number
of iterations. -/
theorem C19_counterexample_cycle :
    ((simRemote simHierarchyCycle "1.0").RetrieveParent none ⟨"Folder", "group-a"⟩).1 =
        .ok (some ⟨"Folder", "group-b"⟩) ∧
      ((simRemote simHierarchyCycle "1.0").RetrieveParent none ⟨"Folder", "group-b"⟩).1 =
        .ok (some ⟨"Folder", "group-a"⟩) ∧
      (∀ fuel,
        getHostDC (simRemote simHierarchyCycle "1.0") fuel (simState none) simHost = none) := by
  refine ⟨rfl, rfl, ?_⟩
  intro fuel
  rw [getHostDC_of_parent _ _ _ simHost (some ⟨"Folder", "group-a"⟩) rfl]
  exact (walkParents_cycle fuel _).1

/-- C19, amended: when the host's ancestors form a finite chain of
non-datacenter nodes `init` followed by a node `d` that is of type `Datacenter`
or has no parent, and every parent fetch along the chain succeeds, `getHostDC`
returns (a container or an error) within `init.length + 1` iterations.  The loop
carries no hop budget. -/
theorem C19_finite_chain_terminates {σ : Type} (env : Remote σ) (st : St σ) (esx : HostSystem)
    (init : List ManagedObjectReference) (d : ManagedObjectReference) (extra : Nat)
    (hanc : Ancestors env esx.Reference (init ++ [d]))
    (hinit : ∀ a ∈ init, a.Typ ≠ "Datacenter")
    (hend : d.Typ = "Datacenter" ∨
      (d.Typ ≠ "Datacenter" ∧ ∀ w, (env.RetrieveParent w d).1 = .ok none)) :
    ∃ r st2, getHostDC env (init.length + 1 + extra) st esx = some (.ret r, st2) := by
  rcases hend with hd | ⟨hd, hroot⟩
  · rcases hshape : init ++ [d] with _ | ⟨a, rest⟩
    · simp at hshape
    · rw [hshape] at hanc
      obtain ⟨hfetch, hanc2⟩ := hanc
      exact ⟨_, _, by
        rw [getHostDC_of_parent env _ st esx (some a) (hfetch st.world),
          walkParents_reaches_datacenter env esx init d extra hinit hd a rest hshape.symm hanc2]⟩
  · exact ⟨_, _, getHostDC_chain_without_datacenter env st esx init d extra hanc hinit hd hroot⟩

/-- Witness for C19 (amended) on `simHierarchyNoDC`, a chain that ends at a root
folder after two ancestors. -/
theorem C19_finite_chain_terminates_witness :
    ∃ r st2, getHostDC (simRemote simHierarchyNoDC "1.0") 2 (simState none) simHost =
      some (.ret r, st2) :=
  C19_finite_chain_terminates (simRemote simHierarchyNoDC "1.0") (simState none) simHost
    [⟨"ComputeResource", "domain-s5"⟩] ⟨"Folder", "group-d1"⟩ 0
    ⟨fun _ => rfl, fun _ => rfl, trivial⟩ (by decide) (Or.inr ⟨by decide, fun _ => rfl⟩)

/-! ## Upload, install and the sequencing of `ensureVib` -/

theorem installVib_snd {σ : Type} (env : Remote σ) (st : St σ) (esx : HostSystem)
    (vibPath : String) :
    (installVib env st esx vibPath).2 = (runEsx env st esx (installArgs vibPath)).2 := by
  unfold installVib
  split <;> rfl

theorem installVib_trace {σ : Type} (env : Remote σ) (st : St σ) (esx : HostSystem)
    (vibPath : String) :
    (installVib env st esx vibPath).2.trace =
      st.trace ++ [Call.runEsxCommand esx (installArgs vibPath)] := by
  rw [installVib_snd, runEsx_trace]

/-- A successful upload returns the datastore path of the package and has made
one `GetDatastore` call followed by one `UploadFile` call under the package's
file name. -/
theorem uploadVib_success {σ : Type} (env : Remote σ) (st : St σ) (dc : Datacenter)
    (datastore : String) (h : (uploadVib env st dc datastore).1.2 = none) :
    (uploadVib env st dc datastore).1.1 =
        "/vmfs/volumes/" ++ datastore ++ "/" ++ "vmkfstools-wrapper.vib" ∧
      ∃ ds, (uploadVib env st dc datastore).2.trace =
        st.trace ++ [Call.getDatastore dc datastore,
          Call.uploadFile ds "/bin/vmkfstools-wrapper.vib" "vmkfstools-wrapper.vib"] := by
  unfold uploadVib at h ⊢
  rcases hg : (getDatastore env st dc datastore).1 with err | ds
  · rw [hg] at h
    simp at h
  · rw [hg] at h
    simp only at h ⊢
    rcases hu : (uploadFile env (getDatastore env st dc datastore).2 ds vibLocation
        (vibName ++ ".vib")).1 with _ | err
    · simp only [hg, hu]
      refine ⟨rfl, ds, ?_⟩
      have : (uploadFile env (getDatastore env st dc datastore).2 ds vibLocation
          (vibName ++ ".vib")).2.trace =
          (st.trace ++ [Call.getDatastore dc datastore]) ++
            [Call.uploadFile ds vibLocation (vibName ++ ".vib")] := rfl
      rw [this, List.append_assoc]
      rfl
    · rw [hu] at h
      simp at h

/-- The upload step only adds `GetDatastore` and `UploadFile` calls to the trace. -/
theorem uploadVib_trace {σ : Type} (env : Remote σ) (st : St σ) (dc : Datacenter)
    (datastore : String) :
    ∃ ext, (uploadVib env st dc datastore).2.trace = st.trace ++ ext ∧
      ∀ c ∈ ext, c.isUpload = true := by
  unfold uploadVib
  rcases hg : (getDatastore env st dc datastore).1 with err | ds
  · exact ⟨[Call.getDatastore dc datastore], rfl, by simp [Call.isUpload]⟩
  · have htr : (uploadFile env (getDatastore env st dc datastore).2 ds vibLocation
          (vibName ++ ".vib")).2.trace =
          st.trace ++ [Call.getDatastore dc datastore,
            Call.uploadFile ds vibLocation (vibName ++ ".vib")] := by
      have : (uploadFile env (getDatastore env st dc datastore).2 ds vibLocation
          (vibName ++ ".vib")).2.trace =
          (st.trace ++ [Call.getDatastore dc datastore]) ++
            [Call.uploadFile ds vibLocation (vibName ++ ".vib")] := rfl
      rw [this, List.append_assoc]
      rfl
    refine ⟨[Call.getDatastore dc datastore,
      Call.uploadFile ds vibLocation (vibName ++ ".vib")], ?_, by simp [Call.isUpload]⟩
    simp only
    rcases hu : (uploadFile env (getDatastore env st dc datastore).2 ds vibLocation
        (vibName ++ ".vib")).1 with _ | err
    · exact htr
    · exact htr

theorem getViBVersion_not_fatal {σ : Type} (env : Remote σ) (st : St σ) (esx : HostSystem)
    (msg : String) (cause : GoError) :
    (getViBVersion env st esx).1 ≠ .fatal msg cause := by
  unfold getViBVersion
  split
  · split
    · simp
    · split
      · split <;> simp
      · simp
  · simp
  · simp

theorem ensureVib_of_version {σ : Type} (env : Remote σ) (fuel : Nat) (st : St σ)
    (esx : HostSystem) (datastore desired cur : String)
    (hq : (getViBVersion env st esx).1 = .ret (cur, none)) :
    ensureVib env fuel st esx datastore desired =
      ensureVibFrom env fuel (getViBVersion env st esx).2 esx datastore desired cur := by
  have h : getViBVersion env st esx = (.ret (cur, none), (getViBVersion env st esx).2) :=
    Prod.ext hq rfl
  unfold ensureVib
  rw [h]

theorem ensureVib_of_query_error {σ : Type} (env : Remote σ) (fuel : Nat) (st : St σ)
    (esx : HostSystem) (datastore desired v : String) (err : GoError)
    (hq : (getViBVersion env st esx).1 = .ret (v, some err)) :
    ensureVib env fuel st esx datastore desired =
      some (.ret (some (.wrapf ("failed to get the VIB version from ESXi " ++ esx.Name) err)),
        (getViBVersion env st esx).2) := by
  have h : getViBVersion env st esx = (.ret (v, some err), (getViBVersion env st esx).2) :=
    Prod.ext hq rfl
  unfold ensureVib
  rw [h]

theorem ensureVib_of_panic {σ : Type} (env : Remote σ) (fuel : Nat) (st : St σ)
    (esx : HostSystem) (datastore desired msg : String)
    (hq : (getViBVersion env st esx).1 = .panicked msg) :
    ensureVib env fuel st esx datastore desired =
      some (.panicked msg, (getViBVersion env st esx).2) := by
  have h : getViBVersion env st esx = (.panicked msg, (getViBVersion env st esx).2) :=
    Prod.ext hq rfl
  unfold ensureVib
  rw [h]

theorem ensureVibFrom_equal {σ : Type} (env : Remote σ) (fuel : Nat) (st : St σ)
    (esx : HostSystem) (datastore desired : String) :
    ensureVibFrom env fuel st esx datastore desired desired = some (.ret none, st) := by
  simp [ensureVibFrom]

theorem ensureVibFrom_resolved {σ : Type} (env : Remote σ) (fuel : Nat) (st st2 : St σ)
    (esx : HostSystem) (datastore desired cur : String) (dc : Datacenter) (hne : cur ≠ desired)
    (hdc : getHostDC env fuel st esx = some (.ret (.ok dc), st2)) :
    ensureVibFrom env fuel st esx datastore desired cur =
      match (uploadVib env st2 dc datastore).1.2 with
      | some err =>
        some (.ret (some (.wrapf ("failed to upload the VIB to ESXi " ++ esx.Name) err)),
          (uploadVib env st2 dc datastore).2)
      | none =>
        match (installVib env (uploadVib env st2 dc datastore).2 esx
            (uploadVib env st2 dc datastore).1.1).1 with
        | some err =>
          some (.ret (some (.wrapf ("failed to install the VIB on ESXi " ++ esx.Name) err)),
            (installVib env (uploadVib env st2 dc datastore).2 esx
              (uploadVib env st2 dc datastore).1.1).2)
        | none =>
          some (.ret none,
            (installVib env (uploadVib env st2 dc datastore).2 esx
              (uploadVib env st2 dc datastore).1.1).2) := by
  rw [ensureVibFrom, if_neg hne, hdc]

theorem ensureVibFrom_unresolved {σ : Type} (env : Remote σ) (fuel : Nat) (st st2 : St σ)
    (esx : HostSystem) (datastore desired cur : String) (hne : cur ≠ desired)
    (o : Outcome (Except GoError Datacenter))
    (hdc : getHostDC env fuel st esx = some (o, st2)) (hno : ∀ dc, o ≠ .ret (.ok dc)) :
    ∃ out, ensureVibFrom env fuel st esx datastore desired cur = some (out, st2) ∧
      out ≠ .ret none ∧ (∀ err, o = .ret (.error err) → out = .ret (some err)) := by
  rw [ensureVibFrom, if_neg hne, hdc]
  cases o with
  | fatal msg cause => exact ⟨.fatal msg cause, rfl, by simp, by simp⟩
  | panicked msg => exact ⟨.panicked msg, rfl, by simp, by simp⟩
  | ret r =>
    cases r with
    | error err =>
      refine ⟨.ret (some err), rfl, by simp, ?_⟩
      intro e he
      simp only [Outcome.ret.injEq, Except.error.injEq] at he
      rw [he]
    | ok dc => exact absurd rfl (hno dc)

theorem ensureVibFrom_none_of_unended {σ : Type} (env : Remote σ) (fuel : Nat) (st : St σ)
    (esx : HostSystem) (datastore desired cur : String) (hne : cur ≠ desired)
    (hdc : getHostDC env fuel st esx = none) :
    ensureVibFrom env fuel st esx datastore desired cur = none := by
  rw [ensureVibFrom, if_neg hne, hdc]

/-- Where a run of `ensureVib` that has ended stopped: at the version query
(query failure, panic on the response, or equal versions), at datacenter
resolution, at the upload, or at the install command. -/
theorem ensureVib_cases {σ : Type} (env : Remote σ) (fuel : Nat) (st : St σ)
    (esx : HostSystem) (datastore desired : String) (out : Outcome (Option GoError))
    (st2 : St σ) (h : ensureVib env fuel st esx datastore desired = some (out, st2)) :
    (st2 = (getViBVersion env st esx).2 ∧
        (out = .ret none → ∃ cur, (getViBVersion env st esx).1 = .ret (cur, none) ∧
          cur = desired)) ∨
      (∃ cur o, (getViBVersion env st esx).1 = .ret (cur, none) ∧ cur ≠ desired ∧
        getHostDC env fuel (getViBVersion env st esx).2 esx = some (o, st2) ∧
        (∀ dc, o ≠ .ret (.ok dc)) ∧ out ≠ .ret none) ∨
      (∃ cur dc st1, (getViBVersion env st esx).1 = .ret (cur, none) ∧ cur ≠ desired ∧
        getHostDC env fuel (getViBVersion env st esx).2 esx = some (.ret (.ok dc), st1) ∧
        (uploadVib env st1 dc datastore).1.2 ≠ none ∧
        st2 = (uploadVib env st1 dc datastore).2 ∧ out ≠ .ret none) ∨
      (∃ cur dc st1, (getViBVersion env st esx).1 = .ret (cur, none) ∧ cur ≠ desired ∧
        getHostDC env fuel (getViBVersion env st esx).2 esx = some (.ret (.ok dc), st1) ∧
        (uploadVib env st1 dc datastore).1.2 = none ∧
        st2 = (installVib env (uploadVib env st1 dc datastore).2 esx
          (uploadVib env st1 dc datastore).1.1).2 ∧
        (out = .ret none →
          (installVib env (uploadVib env st1 dc datastore).2 esx
            (uploadVib env st1 dc datastore).1.1).1 = none)) := by
  rcases hq : (getViBVersion env st esx).1 with ⟨v, e⟩ | ⟨msg, cause⟩ | msg
  · cases e with
    | some err =>
      rw [ensureVib_of_query_error env fuel st esx datastore desired v err hq,
        Option.some.injEq, Prod.mk.injEq] at h
      left
      refine ⟨h.2.symm, ?_⟩
      intro hout
      rw [← h.1] at hout
      simp at hout
    | none =>
      rw [ensureVib_of_version env fuel st esx datastore desired v hq] at h
      by_cases hv : v = desired
      · subst hv
        rw [ensureVibFrom_equal, Option.some.injEq, Prod.mk.injEq] at h
        left
        exact ⟨h.2.symm, fun _ => ⟨v, rfl, rfl⟩⟩
      · right
        rcases hdc : getHostDC env fuel (getViBVersion env st esx).2 esx with _ | ⟨o, st1⟩
        · rw [ensureVibFrom_none_of_unended env fuel _ esx datastore desired v hv hdc] at h
          simp at h
        · by_cases hok : ∃ dc, o = .ret (.ok dc)
          · obtain ⟨dc, hdcok⟩ := hok
            subst hdcok
            rw [ensureVibFrom_resolved env fuel _ st1 esx datastore desired v dc hv hdc] at h
            right
            rcases hu : (uploadVib env st1 dc datastore).1.2 with _ | uerr
            · right
              rw [hu] at h
              simp only at h
              rcases hi : (installVib env (uploadVib env st1 dc datastore).2 esx
                  (uploadVib env st1 dc datastore).1.1).1 with _ | ierr
              · rw [hi] at h
                simp only [Option.some.injEq, Prod.mk.injEq] at h
                exact ⟨v, dc, st1, rfl, hv, rfl, hu, h.2.symm, fun _ => hi⟩
              · rw [hi] at h
                simp only [Option.some.injEq, Prod.mk.injEq] at h
                refine ⟨v, dc, st1, rfl, hv, rfl, hu, h.2.symm, ?_⟩
                intro hout
                rw [← h.1] at hout
                simp at hout
            · left
              rw [hu] at h
              simp only [Option.some.injEq, Prod.mk.injEq] at h
              refine ⟨v, dc, st1, rfl, hv, rfl, by simp [hu], h.2.symm, ?_⟩
              intro hout
              rw [← h.1] at hout
              simp at hout
          · left
            have hno : ∀ dc, o ≠ .ret (.ok dc) := fun dc hd => hok ⟨dc, hd⟩
            obtain ⟨out2, hout2, hne2, _⟩ :=
              ensureVibFrom_unresolved env fuel _ st1 esx datastore desired v hv o hdc hno
            rw [hout2, Option.some.injEq, Prod.mk.injEq] at h
            refine ⟨v, o, rfl, hv, ?_, hno, ?_⟩
            · rw [← h.2]
            · rw [← h.1]
              exact hne2
  · exact absurd hq (getViBVersion_not_fatal env st esx msg cause)
  · rw [ensureVib_of_panic env fuel st esx datastore desired msg hq,
      Option.some.injEq, Prod.mk.injEq] at h
    left
    refine ⟨h.2.symm, ?_⟩
    intro hout
    rw [← h.1] at hout
    simp at hout

theorem isResolve_not_later (c : Call) (h : c.isResolve = true) :
    c.isUpload = false ∧ c.isInstall = false := by
  cases c <;> simp [Call.isResolve, Call.isUpload, Call.isInstall] at h ⊢

theorem isUpload_not_install (c : Call) (h : c.isUpload = true) : c.isInstall = false := by
  cases c <;> simp [Call.isUpload, Call.isInstall] at h ⊢

theorem query_not_install (esx : HostSystem) :
    (Call.runEsxCommand esx queryArgs).isInstall = false := rfl

theorem query_not_upload (esx : HostSystem) :
    (Call.runEsxCommand esx queryArgs).isUpload = false := rfl

/-- The calls made up to the end of datacenter resolution: the version query,
then parent fetches and finder lookups only. -/
theorem newCalls_after_resolution {σ : Type} (env : Remote σ) (fuel : Nat) (st st2 : St σ)
    (esx : HostSystem) (o : Outcome (Except GoError Datacenter))
    (hdc : getHostDC env fuel (getViBVersion env st esx).2 esx = some (o, st2)) :
    ∃ ext, st2.trace = st.trace ++ (Call.runEsxCommand esx queryArgs :: ext) ∧
      ∀ c ∈ ext, c.isResolve = true := by
  obtain ⟨ext, hext, hall⟩ := getHostDC_trace env fuel _ esx _ hdc
  refine ⟨ext, ?_, hall⟩
  rw [hext, getViBVersion_trace]
  simp

/-! ## VIB reconciliation: the claims -/

/-- C13: if the version query succeeds and the version reported in its first
row equals the desired version, `ensureVib` returns nil (whatever number of
loop iterations it is allowed) and the only remote call it made is the single
version query: no parent fetch, finder lookup, upload or install command. -/
theorem C13_equal_versions_only_query {σ : Type} (env : Remote σ) (fuel : Nat) (st : St σ)
    (esx : HostSystem) (datastore desired : String) (row : Values) (rows : List Values)
    (hq : (env.RunEsxCommand st.world esx
      ["software", "vib", "get", "-n", "vmkfstools-wrapper"]).1 = .ok (row :: rows))
    (hv : row.Value "Version" = desired) :
    ensureVib env fuel st esx datastore desired =
      some (.ret none,
        ⟨(env.RunEsxCommand st.world esx
            ["software", "vib", "get", "-n", "vmkfstools-wrapper"]).2,
          st.trace ++
            [Call.runEsxCommand esx ["software", "vib", "get", "-n", "vmkfstools-wrapper"]]⟩) := by
  have h1 := getViBVersion_ok env st esx row rows hq
  rw [hv] at h1
  rw [ensureVib_of_version env fuel st esx datastore desired desired h1, ensureVibFrom_equal,
    getViBVersion_snd]
  rfl

/-- Witness for C13: a simulated host that already carries version `1.0`. -/
theorem C13_equal_versions_only_query_witness :
    ensureVib (simRemote simHierarchy "1.0") 0 (simState (some "1.0")) simHost "ds1" "1.0" =
      some (.ret none,
        ⟨some "1.0",
          [Call.runEsxCommand simHost ["software", "vib", "get", "-n", "vmkfstools-wrapper"]]⟩) :=
  C13_equal_versions_only_query (simRemote simHierarchy "1.0") 0 (simState (some "1.0")) simHost
    "ds1" "1.0" ⟨[("Name", ["vmkfstools-wrapper"]), ("Version", ["1.0"])]⟩ [] rfl (by decide)

/-- C14: if the version query fails with an error that converts (without a
conversion error) to a fault whose message list holds, at any position, a
message with `[NoMatchError]` as a substring, `getViBVersion` returns the empty
version and a nil error; `ensureVib` then continues exactly as after a query
that reported version `""`, so it returns nil when the desired version is `""`
and otherwise goes on to datacenter resolution. -/
theorem C14_no_match_fault_is_empty_version {σ : Type} (env : Remote σ) (st : St σ)
    (esx : HostSystem) (err : GoError) (vFault : Fault) (m : String)
    (hq : (env.RunEsxCommand st.world esx
      ["software", "vib", "get", "-n", "vmkfstools-wrapper"]).1 = .error err)
    (hconv : env.ErrToFault err = (some vFault, none))
    (hm : m ∈ vFault.ErrMsgs)
    (hsub : ∃ pre post : String, m = pre ++ "[NoMatchError]" ++ post) :
    (getViBVersion env st esx).1 = .ret ("", none) ∧
      (∀ fuel datastore desired,
        ensureVib env fuel st esx datastore desired =
          ensureVibFrom env fuel (getViBVersion env st esx).2 esx datastore desired "") ∧
      (∀ fuel datastore,
        ensureVib env fuel st esx datastore "" = some (.ret none, (getViBVersion env st esx).2)) := by
  have hno : hasNoMatchError vFault.ErrMsgs = true :=
    (hasNoMatchError_iff _).2 ⟨m, hm, (stringsContains_iff _ _).2 hsub⟩
  have h1 : (getViBVersion env st esx).1 = .ret ("", none) := by
    rw [getViBVersion_error env st esx err hq, if_pos]
    rw [hconv]
    exact ⟨rfl, vFault, rfl, hno⟩
  refine ⟨h1, ?_, ?_⟩
  · intro fuel datastore desired
    exact ensureVib_of_version env fuel st esx datastore desired "" h1
  · intro fuel datastore
    rw [ensureVib_of_version env fuel st esx datastore "" "" h1, ensureVibFrom_equal]

/-- Witness for C14: a simulated host without the VIB answers the query with a
fault whose second message contains `[NoMatchError]`. -/
theorem C14_no_match_fault_is_empty_version_witness :
    (getViBVersion (simRemote simHierarchy "1.0") (simState none) simHost).1 = .ret ("", none) :=
  (C14_no_match_fault_is_empty_version (simRemote simHierarchy "1.0") (simState none) simHost
    (.remote "EsxCLI fault: [NoMatchError] no VIB matching")
    ⟨["fault", "EsxCLI fault: [NoMatchError] no VIB matching"]⟩
    "EsxCLI fault: [NoMatchError] no VIB matching" rfl rfl (by decide)
    ⟨"EsxCLI fault: ", " no VIB matching", by decide⟩).1

/-- Sequencing of `ensureVib` over the errors its steps return.
(1) A version query that fails with an error that does not convert, converts to
no fault, or converts to a fault none of whose messages contains
`[NoMatchError]`, makes `ensureVib` return a non-nil error after the query alone.
(2) An error returned by datacenter resolution is returned, and no upload or
install call was made.  (3) An upload error is returned wrapped, and no install
call was made.  (4) An install error is returned wrapped.  (5) Whenever a run
ends, an install call in its trace implies that resolution and upload succeeded,
an upload call implies that resolution succeeded, and a nil result implies that
the versions were equal or that the install command succeeded. -/
theorem ensureVib_fail_fast_on_returned_errors {σ : Type} (env : Remote σ) (fuel : Nat) (st : St σ)
    (esx : HostSystem) (datastore desired : String) :
    (∀ err, (env.RunEsxCommand st.world esx
          ["software", "vib", "get", "-n", "vmkfstools-wrapper"]).1 = .error err →
        ((env.ErrToFault err).2 ≠ none ∨ (env.ErrToFault err).1 = none ∨
          ∃ vFault, (env.ErrToFault err).1 = some vFault ∧
            ∀ m ∈ vFault.ErrMsgs, stringsContains m "[NoMatchError]" = false) →
        ensureVib env fuel st esx datastore desired =
            some (.ret (some (.wrapf ("failed to get the VIB version from ESXi " ++ esx.Name) err)),
              (getViBVersion env st esx).2) ∧
          newCalls st (getViBVersion env st esx).2 =
            [Call.runEsxCommand esx ["software", "vib", "get", "-n", "vmkfstools-wrapper"]]) ∧
      (∀ cur err st2, (getViBVersion env st esx).1 = .ret (cur, none) → cur ≠ desired →
        getHostDC env fuel (getViBVersion env st esx).2 esx = some (.ret (.error err), st2) →
        ensureVib env fuel st esx datastore desired = some (.ret (some err), st2) ∧
          ∀ c ∈ newCalls st st2, c.isUpload = false ∧ c.isInstall = false) ∧
      (∀ cur dc st2 err, (getViBVersion env st esx).1 = .ret (cur, none) → cur ≠ desired →
        getHostDC env fuel (getViBVersion env st esx).2 esx = some (.ret (.ok dc), st2) →
        (uploadVib env st2 dc datastore).1.2 = some err →
        ensureVib env fuel st esx datastore desired =
            some (.ret (some (.wrapf ("failed to upload the VIB to ESXi " ++ esx.Name) err)),
              (uploadVib env st2 dc datastore).2) ∧
          ∀ c ∈ newCalls st (uploadVib env st2 dc datastore).2, c.isInstall = false) ∧
      (∀ cur dc st2 err, (getViBVersion env st esx).1 = .ret (cur, none) → cur ≠ desired →
        getHostDC env fuel (getViBVersion env st esx).2 esx = some (.ret (.ok dc), st2) →
        (uploadVib env st2 dc datastore).1.2 = none →
        (installVib env (uploadVib env st2 dc datastore).2 esx
          (uploadVib env st2 dc datastore).1.1).1 = some err →
        ensureVib env fuel st esx datastore desired =
          some (.ret (some (.wrapf ("failed to install the VIB on ESXi " ++ esx.Name) err)),
            (installVib env (uploadVib env st2 dc datastore).2 esx
              (uploadVib env st2 dc datastore).1.1).2)) ∧
      (∀ out st3, ensureVib env fuel st esx datastore desired = some (out, st3) →
        ((∃ c ∈ newCalls st st3, c.isInstall = true) →
          ∃ cur dc st2, (getViBVersion env st esx).1 = .ret (cur, none) ∧ cur ≠ desired ∧
            getHostDC env fuel (getViBVersion env st esx).2 esx = some (.ret (.ok dc), st2) ∧
            (uploadVib env st2 dc datastore).1.2 = none) ∧
        ((∃ c ∈ newCalls st st3, c.isUpload = true) →
          ∃ cur dc st2, (getViBVersion env st esx).1 = .ret (cur, none) ∧ cur ≠ desired ∧
            getHostDC env fuel (getViBVersion env st esx).2 esx = some (.ret (.ok dc), st2)) ∧
        (out = .ret none →
          (∃ cur, (getViBVersion env st esx).1 = .ret (cur, none) ∧ cur = desired) ∨
          (∃ cur dc st2, (getViBVersion env st esx).1 = .ret (cur, none) ∧
            getHostDC env fuel (getViBVersion env st esx).2 esx = some (.ret (.ok dc), st2) ∧
            (uploadVib env st2 dc datastore).1.2 = none ∧
            (installVib env (uploadVib env st2 dc datastore).2 esx
              (uploadVib env st2 dc datastore).1.1).1 = none))) := by
  have hqcalls : newCalls st (getViBVersion env st esx).2 =
      [Call.runEsxCommand esx queryArgs] :=
    newCalls_of_trace _ _ _ (getViBVersion_trace env st esx)
  refine ⟨?_, ?_, ?_, ?_, ?_⟩
  · intro err hq hkind
    refine ⟨?_, hqcalls⟩
    apply ensureVib_of_query_error env fuel st esx datastore desired ""
    rw [getViBVersion_error env st esx err hq, if_neg]
    rintro ⟨hc, vFault, hf, hno⟩
    rcases hkind with h | h | ⟨f, hf2, hall⟩
    · exact h hc
    · rw [h] at hf
      simp at hf
    · rw [hf2, Option.some.injEq] at hf
      subst hf
      obtain ⟨m, hm, hcont⟩ := (hasNoMatchError_iff _).1 hno
      rw [hall m hm] at hcont
      simp at hcont
  · intro cur err st2 hq hne hdc
    obtain ⟨out, hout, _, herr⟩ :=
      ensureVibFrom_unresolved env fuel _ st2 esx datastore desired cur hne _ hdc (by simp)
    refine ⟨?_, ?_⟩
    · rw [ensureVib_of_version env fuel st esx datastore desired cur hq, hout, herr err rfl]
    · obtain ⟨ext, hext, hall⟩ := newCalls_after_resolution env fuel st st2 esx _ hdc
      rw [newCalls_of_trace _ _ _ hext]
      intro c hc
      rcases List.mem_cons.1 hc with h1 | h1
      · subst h1
        exact ⟨rfl, rfl⟩
      · exact isResolve_not_later c (hall c h1)
  · intro cur dc st2 err hq hne hdc hup
    refine ⟨?_, ?_⟩
    · rw [ensureVib_of_version env fuel st esx datastore desired cur hq,
        ensureVibFrom_resolved env fuel _ st2 esx datastore desired cur dc hne hdc, hup]
    · obtain ⟨ext, hext, hall⟩ := newCalls_after_resolution env fuel st st2 esx _ hdc
      obtain ⟨uext, huext, huall⟩ := uploadVib_trace env st2 dc datastore
      have htr : (uploadVib env st2 dc datastore).2.trace =
          st.trace ++ (Call.runEsxCommand esx queryArgs :: (ext ++ uext)) := by
        rw [huext, hext]
        simp
      rw [newCalls_of_trace _ _ _ htr]
      intro c hc
      rcases List.mem_cons.1 hc with h1 | h1
      · subst h1
        rfl
      · rcases List.mem_append.1 h1 with h2 | h2
        · exact (isResolve_not_later c (hall c h2)).2
        · exact isUpload_not_install c (huall c h2)
  · intro cur dc st2 err hq hne hdc hup hin
    rw [ensureVib_of_version env fuel st esx datastore desired cur hq,
      ensureVibFrom_resolved env fuel _ st2 esx datastore desired cur dc hne hdc, hup]
    simp only
    rw [hin]
  · intro out st3 h
    rcases ensureVib_cases env fuel st esx datastore desired out st3 h with
      ⟨hst, hnil⟩ | ⟨cur, o, hq, hne, hdc, hno, hout⟩ |
      ⟨cur, dc, st1, hq, hne, hdc, hup, hst, hout⟩ | ⟨cur, dc, st1, hq, hne, hdc, hup, hst, hnil⟩
    · subst hst
      rw [hqcalls]
      refine ⟨?_, ?_, fun ho => Or.inl (hnil ho)⟩
      · rintro ⟨c, hc, hi⟩
        rw [List.mem_singleton] at hc
        subst hc
        rw [query_not_install] at hi
        exact absurd hi (by decide)
      · rintro ⟨c, hc, hi⟩
        rw [List.mem_singleton] at hc
        subst hc
        rw [query_not_upload] at hi
        exact absurd hi (by decide)
    · obtain ⟨ext, hext, hall⟩ := newCalls_after_resolution env fuel st st3 esx _ hdc
      rw [newCalls_of_trace _ _ _ hext]
      have hnone : ∀ c ∈ Call.runEsxCommand esx queryArgs :: ext,
          c.isUpload = false ∧ c.isInstall = false := by
        intro c hc
        rcases List.mem_cons.1 hc with h1 | h1
        · subst h1
          exact ⟨rfl, rfl⟩
        · exact isResolve_not_later c (hall c h1)
      refine ⟨?_, ?_, fun ho => absurd ho hout⟩
      · rintro ⟨c, hc, hi⟩
        rw [(hnone c hc).2] at hi
        exact absurd hi (by decide)
      · rintro ⟨c, hc, hi⟩
        rw [(hnone c hc).1] at hi
        exact absurd hi (by decide)
    · obtain ⟨ext, hext, hall⟩ := newCalls_after_resolution env fuel st st1 esx _ hdc
      obtain ⟨uext, huext, huall⟩ := uploadVib_trace env st1 dc datastore
      have htr : st3.trace = st.trace ++ (Call.runEsxCommand esx queryArgs :: (ext ++ uext)) := by
        rw [hst, huext, hext]
        simp
      rw [newCalls_of_trace _ _ _ htr]
      refine ⟨?_, fun _ => ⟨cur, dc, st1, hq, hne, hdc⟩, fun ho => absurd ho hout⟩
      rintro ⟨c, hc, hi⟩
      rcases List.mem_cons.1 hc with h1 | h1
      · subst h1
        rw [query_not_install] at hi
        exact absurd hi (by decide)
      · rcases List.mem_append.1 h1 with h2 | h2
        · rw [(isResolve_not_later c (hall c h2)).2] at hi
          exact absurd hi (by decide)
        · rw [isUpload_not_install c (huall c h2)] at hi
          exact absurd hi (by decide)
    · exact ⟨fun _ => ⟨cur, dc, st1, hq, hne, hdc, hup⟩, fun _ => ⟨cur, dc, st1, hq, hne, hdc⟩,
        fun ho => Or.inr ⟨cur, dc, st1, hq, hdc, hup, hnil ho⟩⟩

/-- On a hierarchy without a datacenter the resolution error is returned and
nothing is uploaded or installed. -/
theorem ensureVib_fail_fast_on_returned_errors_example :
    ensureVib (simRemote simHierarchyNoDC "1.0") 2 (simState (some "0.8")) simHost "ds1" "1.0" =
        some (.ret (some (.errorf "could not determine datacenter for host 'esx1'.")),
          ⟨some "0.8",
            [Call.runEsxCommand simHost ["software", "vib", "get", "-n", "vmkfstools-wrapper"],
              .retrieveParent ⟨"HostSystem", "host-9"⟩,
              .retrieveParent ⟨"ComputeResource", "domain-s5"⟩,
              .retrieveParent ⟨"Folder", "group-d1"⟩]⟩) :=
  ((ensureVib_fail_fast_on_returned_errors (simRemote simHierarchyNoDC "1.0") 2 (simState (some "0.8")) simHost
    "ds1" "1.0").2.1 "0.8" (.errorf "could not determine datacenter for host 'esx1'.") _
    (by decide) (by decide) (by decide)).1

/-- C15 fails on the code: when datacenter resolution fails because a parent
fetch fails (the fetch of an intermediate node's parent, or of the host's own
parent), `ensureVib` returns no error: `klog.Fatalf` in `getHostDC` ends the
process.  When the host's own parent reference is absent, `ensureVib` panics
with `getHostDC`.  In each run no upload or install call is made. -/
theorem C15_failed_resolution_returns_no_error :
    ensureVib (simRemote simHierarchyBroken "1.0") 3 (simState (some "0.8")) simHost "ds1" "1.0" =
        some (.fatal "failed to retrieve intermediate parent" (.remote "ManagedObjectNotFound"),
          ⟨some "0.8",
            [Call.runEsxCommand simHost ["software", "vib", "get", "-n", "vmkfstools-wrapper"],
              .retrieveParent ⟨"HostSystem", "host-9"⟩,
              .retrieveParent ⟨"ClusterComputeResource", "domain-c7"⟩]⟩) ∧
      ensureVib (simRemote [] "1.0") 3 (simState (some "0.8")) simHost "ds1" "1.0" =
        some (.fatal "failed to retrieve host parent" (.remote "ManagedObjectNotFound"),
          ⟨some "0.8",
            [Call.runEsxCommand simHost ["software", "vib", "get", "-n", "vmkfstools-wrapper"],
              .retrieveParent ⟨"HostSystem", "host-9"⟩]⟩) ∧
      ensureVib (simRemote simHierarchyOrphan "1.0") 3 (simState (some "0.8")) simHost "ds1"
          "1.0" =
        some (.panicked "nil pointer dereference",
          ⟨some "0.8",
            [Call.runEsxCommand simHost ["software", "vib", "get", "-n", "vmkfstools-wrapper"],
              .retrieveParent ⟨"HostSystem", "host-9"⟩]⟩) := by
  decide

/-- C20: when the versions differ and datacenter resolution and upload succeed,
the path returned by `uploadVib` is `/vmfs/volumes/<datastore>/vmkfstools-wrapper.vib`,
the package was uploaded under the file name `vmkfstools-wrapper.vib`, and
`ensureVib` then invokes the install command on the same host with the argument
vector `software vib install -f 1 -v <that path>`, as its last remote call and
as the only install command of the run. -/
theorem C20_install_once_on_uploaded_path {σ : Type} (env : Remote σ) (fuel : Nat) (st : St σ)
    (esx : HostSystem) (d desired cur : String) (dc : Datacenter) (st2 : St σ)
    (hq : (getViBVersion env st esx).1 = .ret (cur, none)) (hne : cur ≠ desired)
    (hdc : getHostDC env fuel (getViBVersion env st esx).2 esx = some (.ret (.ok dc), st2))
    (hup : (uploadVib env st2 dc d).1.2 = none) :
    (uploadVib env st2 dc d).1.1 = "/vmfs/volumes/" ++ d ++ "/vmkfstools-wrapper.vib" ∧
      ∃ r st3 ds, ensureVib env fuel st esx d desired = some (.ret r, st3) ∧
        st3.trace = st2.trace ++
          [Call.getDatastore dc d,
            Call.uploadFile ds "/bin/vmkfstools-wrapper.vib" "vmkfstools-wrapper.vib",
            Call.runEsxCommand esx
              ["software", "vib", "install", "-f", "1", "-v",
                "/vmfs/volumes/" ++ d ++ "/vmkfstools-wrapper.vib"]] ∧
        (newCalls st st3).countP Call.isInstall = 1 := by
  obtain ⟨hpath0, ds, hutrace⟩ := uploadVib_success env st2 dc d hup
  have hpath : (uploadVib env st2 dc d).1.1 =
      "/vmfs/volumes/" ++ d ++ "/vmkfstools-wrapper.vib" := by
    rw [hpath0, String.append_assoc ("/vmfs/volumes/" ++ d)]
    rfl
  refine ⟨hpath, ?_⟩
  have hitrace : (installVib env (uploadVib env st2 dc d).2 esx (uploadVib env st2 dc d).1.1).2.trace =
      st2.trace ++
        [Call.getDatastore dc d,
          Call.uploadFile ds "/bin/vmkfstools-wrapper.vib" "vmkfstools-wrapper.vib",
          Call.runEsxCommand esx
            ["software", "vib", "install", "-f", "1", "-v",
              "/vmfs/volumes/" ++ d ++ "/vmkfstools-wrapper.vib"]] := by
    rw [installVib_trace, hutrace, hpath]
    simp [installArgs]
  obtain ⟨ext, hext, hall⟩ := newCalls_after_resolution env fuel st st2 esx _ hdc
  have hcount : (newCalls st
      (installVib env (uploadVib env st2 dc d).2 esx (uploadVib env st2 dc d).1.1).2).countP
        Call.isInstall = 1 := by
    have htr : (installVib env (uploadVib env st2 dc d).2 esx (uploadVib env st2 dc d).1.1).2.trace =
        st.trace ++ ((Call.runEsxCommand esx queryArgs :: ext) ++
          [Call.getDatastore dc d,
            Call.uploadFile ds "/bin/vmkfstools-wrapper.vib" "vmkfstools-wrapper.vib",
            Call.runEsxCommand esx
              ["software", "vib", "install", "-f", "1", "-v",
                "/vmfs/volumes/" ++ d ++ "/vmkfstools-wrapper.vib"]]) := by
      rw [hitrace, hext]
      simp
    rw [newCalls_of_trace _ _ _ htr, List.countP_append]
    have h0 : (Call.runEsxCommand esx queryArgs :: ext).countP Call.isInstall = 0 := by
      rw [List.countP_eq_zero]
      intro c hc
      rcases List.mem_cons.1 hc with h1 | h1
      · subst h1
        rw [query_not_install]
        decide
      · rw [(isResolve_not_later c (hall c h1)).2]
        decide
    rw [h0]
    rfl
  rw [ensureVib_of_version env fuel st esx d desired cur hq,
    ensureVibFrom_resolved env fuel _ st2 esx d desired cur dc hne hdc, hup]
  simp only
  rcases hi : (installVib env (uploadVib env st2 dc d).2 esx (uploadVib env st2 dc d).1.1).1
    with _ | ierr
  · exact ⟨none, _, ds, rfl, hitrace, hcount⟩
  · exact ⟨some (.wrapf ("failed to install the VIB on ESXi " ++ esx.Name) ierr), _, ds, rfl,
      hitrace, hcount⟩

/-- Witness for C20: a simulated host carrying version `0.8` is brought to the
package on datastore `ds1`. -/
theorem C20_install_once_on_uploaded_path_witness :
    (uploadVib (simRemote simHierarchy "1.0")
        ⟨some "0.8",
          [Call.runEsxCommand simHost ["software", "vib", "get", "-n", "vmkfstools-wrapper"],
            .retrieveParent ⟨"HostSystem", "host-9"⟩,
            .retrieveParent ⟨"ClusterComputeResource", "domain-c7"⟩,
            .retrieveParent ⟨"Folder", "group-h4"⟩,
            .finderDatacenter "Datacenter:datacenter-2"]⟩
        ⟨⟨"Datacenter", "Datacenter:datacenter-2"⟩, "/Datacenter:datacenter-2"⟩ "ds1").1.1 =
      "/vmfs/volumes/" ++ "ds1" ++ "/vmkfstools-wrapper.vib" :=
  (C20_install_once_on_uploaded_path (simRemote simHierarchy "1.0") 3 (simState (some "0.8"))
    simHost "ds1" "1.0" "0.8"
    ⟨⟨"Datacenter", "Datacenter:datacenter-2"⟩, "/Datacenter:datacenter-2"⟩ _
    (by decide) (by decide) (by decide) (by decide)).1

/-! ## Order independence of duplicate detection -/

/-- The final loop over the counter map gives the same answer in whatever order
the entries are visited. -/
theorem rangeNadCount_perm (l1 l2 : List (String × Nat)) (h : l1.Perm l2) :
    rangeNadCount l1 = rangeNadCount l2 := by
  rw [Bool.eq_iff_iff, rangeNadCount_iff, rangeNadCount_iff]
  constructor
  · rintro ⟨e, he, hc⟩
    exact ⟨e, h.mem_iff.1 he, hc⟩
  · rintro ⟨e, he, hc⟩
    exact ⟨e, h.mem_iff.2 he, hc⟩

theorem validate_perm (refs1 refs2 : List Ref) (nm : Option NetworkMap)
    (h : refs1.Perm refs2) :
    ValidateNetworkDuplicates refs1 nm = ValidateNetworkDuplicates refs2 nm := by
  apply Prod.ext
  · rw [Bool.eq_iff_iff, nadDup_iff_count, nadDup_iff_count]
    constructor
    · rintro ⟨k, hk⟩
      exact ⟨k, by rw [← h.countP_eq]; exact hk⟩
    · rintro ⟨k, hk⟩
      exact ⟨k, by rw [h.countP_eq]; exact hk⟩
  · cases nm with
    | none => rfl
    | some m =>
      simp only [ValidateNetworkDuplicates, countLoop_fst]
      rw [h.countP_eq]

/-- C22: for every network map and every two reference lists that are
permutations of each other `ValidateNetworkDuplicates` returns the same pair of
flags, and visiting the entries of the per-destination counter in any other
order gives the same `foundNadDup`. -/
theorem C22_depends_only_on_multiset (nicRefs1 nicRefs2 : List Ref)
    (networkMap : Option NetworkMap) (hperm : nicRefs1.Perm nicRefs2) :
    ValidateNetworkDuplicates nicRefs1 networkMap =
        ValidateNetworkDuplicates nicRefs2 networkMap ∧
      ∀ (m : NetworkMap) (entries : List (String × Nat)),
        entries.Perm (countLoop (some m) nicRefs1 (0, [])).2 →
          rangeNadCount entries = (ValidateNetworkDuplicates nicRefs1 (some m)).1 := by
  refine ⟨validate_perm nicRefs1 nicRefs2 networkMap hperm, ?_⟩
  intro m entries hent
  rw [rangeNadCount_perm entries _ hent]
  rfl

/-- Witness for C22: a rotation and swap of three references, one of them
unmapped, on the map of `TestValidateNetworkDuplicates_DuplicateNAD_ByNameNamespace`. -/
theorem C22_depends_only_on_multiset_witness :
    ValidateNetworkDuplicates refsUnmappedThenNs12 (some mapSameNAD) =
      ValidateNetworkDuplicates refsNs21ThenUnmapped (some mapSameNAD) :=
  (C22_depends_only_on_multiset refsUnmappedThenNs12 refsNs21ThenUnmapped (some mapSameNAD)
    (by decide)).1

/-! ## Repeated reconciliation and the query response: the claims -/

/-- C21, as stated, fails: the package at hand installs version `0.9` while
version `1.0` is desired.  The first call on a host carrying `0.8` returns nil
after installing; on the resulting host state the second call with the same
desired version returns nil too, but only after resolving the datacenter,
uploading and installing once more. -/
theorem C21_counterexample_reinstall :
    ensureVib (simRemote simHierarchy "0.9") 3 (simState (some "0.8")) simHost "ds1" "1.0" =
        some (.ret none, ⟨some "0.9", simReconcileCalls⟩) ∧
      ensureVib (simRemote simHierarchy "0.9") 3 ⟨some "0.9", simReconcileCalls⟩ simHost "ds1"
          "1.0" =
        some (.ret none, ⟨some "0.9", simReconcileCalls ++ simReconcileCalls⟩) ∧
      newCalls (⟨some "0.9", simReconcileCalls⟩ : St (Option String))
          ⟨some "0.9", simReconcileCalls ++ simReconcileCalls⟩ = simReconcileCalls ∧
      simReconcileCalls.any Call.isResolve = true ∧
      simReconcileCalls.any Call.isUpload = true ∧
      simReconcileCalls.any Call.isInstall = true := by
  decide

/-- C21, amended: if a first call of `ensureVib` with desired version `v` returns
nil and, on the resulting host state, the version query yields `v` (the code
does not verify this after an install), then a second call with the same `v`
returns nil and makes the version query as its only remote call.  A first call
that returned nil either found the version `v` already or ended with a
successful install command. -/
theorem C21_second_call_is_noop_when_version_reported {σ : Type} (env : Remote σ)
    (fuel1 fuel2 : Nat) (st st2 : St σ) (esx : HostSystem) (datastore v : String)
    (hfirst : ensureVib env fuel1 st esx datastore v = some (.ret none, st2))
    (hreport : (getViBVersion env st2 esx).1 = .ret (v, none)) :
    ensureVib env fuel2 st2 esx datastore v = some (.ret none, (getViBVersion env st2 esx).2) ∧
      newCalls st2 (getViBVersion env st2 esx).2 =
        [Call.runEsxCommand esx ["software", "vib", "get", "-n", "vmkfstools-wrapper"]] ∧
      ∃ cur, (getViBVersion env st esx).1 = .ret (cur, none) ∧
        ((cur = v ∧ st2 = (getViBVersion env st esx).2) ∨
          ∃ dc st1,
            getHostDC env fuel1 (getViBVersion env st esx).2 esx = some (.ret (.ok dc), st1) ∧
            (installVib env (uploadVib env st1 dc datastore).2 esx
              (uploadVib env st1 dc datastore).1.1).1 = none ∧
            st2 = (installVib env (uploadVib env st1 dc datastore).2 esx
              (uploadVib env st1 dc datastore).1.1).2) := by
  refine ⟨?_, newCalls_of_trace _ _ _ (getViBVersion_trace env st2 esx), ?_⟩
  · rw [ensureVib_of_version env fuel2 st2 esx datastore v v hreport, ensureVibFrom_equal]
  · rcases ensureVib_cases env fuel1 st esx datastore v _ st2 hfirst with
      ⟨hst, hnil⟩ | ⟨cur, o, hq, hne, hdc, hno, hout⟩ |
      ⟨cur, dc, st1, hq, hne, hdc, hup, hst, hout⟩ | ⟨cur, dc, st1, hq, hne, hdc, hup, hst, hnil⟩
    · obtain ⟨cur, hq, hcur⟩ := hnil rfl
      exact ⟨cur, hq, Or.inl ⟨hcur, hst⟩⟩
    · exact absurd rfl hout
    · exact absurd rfl hout
    · exact ⟨cur, hq, Or.inr ⟨dc, st1, hdc, hnil rfl, hst⟩⟩

/-- Witness for C21 (amended): the package at hand installs the desired version
`1.0`, so the second call on the resulting host state only queries. -/
theorem C21_second_call_is_noop_when_version_reported_witness :
    ensureVib (simRemote simHierarchy "1.0") 0 ⟨some "1.0", simReconcileCalls⟩ simHost "ds1"
        "1.0" =
      some (.ret none,
        (getViBVersion (simRemote simHierarchy "1.0") ⟨some "1.0", simReconcileCalls⟩
          simHost).2) :=
  (C21_second_call_is_noop_when_version_reported (simRemote simHierarchy "1.0") 3 0
    (simState (some "0.8")) ⟨some "1.0", simReconcileCalls⟩ simHost "ds1" "1.0"
    (by decide) (by decide)).1

/-- The version query returns, with a version or an error, exactly when the
remote command did not succeed with a response of zero rows; on such a response
indexing the first row panics. -/
theorem getViBVersion_returns_iff {σ : Type} (env : Remote σ) (st : St σ) (esx : HostSystem) :
    ((env.RunEsxCommand st.world esx queryArgs).1 ≠ .ok [] →
        ∃ r, (getViBVersion env st esx).1 = .ret r) ∧
      ((env.RunEsxCommand st.world esx queryArgs).1 = .ok [] →
        (getViBVersion env st esx).1 = .panicked "index out of range [0] with length 0") := by
  constructor
  · intro hne
    rcases hq : (env.RunEsxCommand st.world esx queryArgs).1 with err | rows
    · rw [getViBVersion_error env st esx err hq]
      split
      · exact ⟨_, rfl⟩
      · exact ⟨_, rfl⟩
    · cases rows with
      | nil => exact absurd hq hne
      | cons row rest => exact ⟨_, getViBVersion_ok env st esx row rest hq⟩
  · intro hq
    have h : (runEsx env st esx ["software", "vib", "get", "-n", vibName]).1 = .ok [] := hq
    unfold getViBVersion
    rw [h]

/-- C23 fails on the code: when the version query succeeds with a response of
zero rows, `getViBVersion` returns neither a version nor an error; indexing
`r[0]` panics, and `ensureVib` panics with it. -/
theorem C23_zero_rows_panics :
    getViBVersion simRemoteNoRows (simState none) simHost =
        (.panicked "index out of range [0] with length 0",
          ⟨none,
            [Call.runEsxCommand simHost ["software", "vib", "get", "-n", "vmkfstools-wrapper"]]⟩) ∧
      ensureVib simRemoteNoRows 3 (simState none) simHost "ds1" "1.0" =
        some (.panicked "index out of range [0] with length 0",
          ⟨none,
            [Call.runEsxCommand simHost ["software", "vib", "get", "-n", "vmkfstools-wrapper"]]⟩) := by
  decide

end Forklift
